import Mathlib

/-!
# Vector field simulation: `simulation.c`

A shallow embedding of `simulation.c` and the properties of its numerical
kernel (`init_grid`, `update_grid`) and of its output stream (`print_grid`,
`print_lattice_velocities`, `main`).

Modelling conventions.

* A C `double` is an exact rational number: the rounding of arithmetic
  results, infinities and NaN are not modelled.
* `cos` and `sin` come from `<math.h>`, not from this program: every
  definition that calls them takes them as the parameters `cos sin : ℚ → ℚ`.
* `int` is a 32 bit two's complement integer.  The conversion of a `double`
  to `int` and `abs` have undefined behaviour outside the representable
  range; undefined behaviour is the result `none`.
* `point_t grid[X_SIZE][Y_SIZE]` is a function on `Fin X_SIZE × Fin Y_SIZE`;
  an assignment to a member of `grid[i][j]` is `store`.  A function that
  receives the array receives and returns the whole array.
* A stream is the list of text lines its device accepts, the number of
  further lines the device still accepts, the error indicator and the state of
  the buffer.  A line is the list of values printed on it; the digits produced
  by `%f` and `%d` are not modelled.  The device reports a write it refuses to
  the caller, as a full disk does.  A device that answers with a signal (a pipe
  without reader, a file over the size limit) ends the process by the default
  action of the signal: such devices are not modelled.
-/

namespace VectorField

/-! ## Constants -/

/-- `#define X_SIZE 41`. -/
abbrev X_SIZE : Nat := 41

/-- `#define Y_SIZE 41`. -/
abbrev Y_SIZE : Nat := 41

/-- `#define TIME_STEP 0.01F`: the single precision number nearest to 0.01,
`10737418 / 2 ^ 30`, which the products of `update_grid` and the `%f` of `main`
convert to `double` without change. -/
def TIME_STEP : ℚ := 5368709 / 536870912

/-- `#define NUMBER_OF_STEPS 1000`. -/
abbrev NUMBER_OF_STEPS : Nat := 1000

/-- `#define X_LIMIT 2*X_SIZE`, an `int` expression. -/
def X_LIMIT : Int := 2 * (X_SIZE : Int)

/-- `#define Y_LIMIT 2*Y_SIZE`, an `int` expression. -/
def Y_LIMIT : Int := 2 * (Y_SIZE : Int)

/-- Largest value of an `int`. -/
def INT_MAX : Int := 2147483647

/-- Smallest value of an `int`. -/
def INT_MIN : Int := -2147483648

/-! ## Data -/

/-- The struct `point_t`; `is_dead` is an `unsigned char` read as a truth value. -/
structure point_t where
  x : ℚ
  y : ℚ
  x_velocity : ℚ
  y_velocity : ℚ
  is_dead : Nat

/-- The struct `vector_t`. -/
structure vector_t where
  x : ℚ
  y : ℚ

/-- The array type `point_t [X_SIZE][Y_SIZE]`. -/
abbrev grid_t : Type := Fin X_SIZE → Fin Y_SIZE → point_t

/-- The assignment `grid[i][j] = p`. -/
def store (grid : grid_t) (i : Fin X_SIZE) (j : Fin Y_SIZE) (p : point_t) : grid_t :=
  fun a b => if a = i ∧ b = j then p else grid a b

/-- The loop `for (int i = 0; i < n; i++) body` acting on a state. -/
@[irreducible]
def for_loop {σ : Type} (n : Nat) (body : Fin n → σ → σ) (s : σ) : σ :=
  (List.finRange n).foldl (fun s i => body i s) s

/-- The loop `for (int i = 0; i < n; i++) body` for a body whose behaviour can
be undefined: the first undefined iteration makes the whole loop undefined. -/
@[irreducible]
def for_loop_ub {σ : Type} (n : Nat) (body : Fin n → σ → Option σ) (s : σ) : Option σ :=
  (List.finRange n).foldlM (fun s i => body i s) s

/-! ## Integer conversion and `abs` -/

/-- Truncation toward zero, the value of `(int) d` when it is representable. -/
def trunc (d : ℚ) : Int := if 0 ≤ d then ⌊d⌋ else ⌈d⌉

/-- The implicit conversion of a `double` argument to the `int` parameter of
`abs`: truncation toward zero, undefined when the result is not an `int`. -/
def double_to_int (d : ℚ) : Option Int :=
  if INT_MIN ≤ trunc d ∧ trunc d ≤ INT_MAX then some (trunc d) else none

/-- The function `int abs(int)` of `<stdlib.h>`: undefined when the result is
not representable. -/
def c_abs (n : Int) : Option Int := if n = INT_MIN then none else some |n|

/-- The call `abs(d)` with a `double` argument `d`. -/
def abs_of_double (d : ℚ) : Option Int := (double_to_int d).bind c_abs

/-! ## The program -/

/-- The function `equation`: `v.x = -y * cos(y); v.y = x * sin(-x);`. -/
def equation (cos sin : ℚ → ℚ) (x y : ℚ) : vector_t :=
  { x := -y * cos y, y := x * sin (-x) }

/-- The function `init_grid`. -/
def init_grid (grid : grid_t) : grid_t :=
  for_loop X_SIZE (fun i grid =>
    for_loop Y_SIZE (fun j grid =>
      let grid := store grid i j { grid i j with x := (((i.val : Int) - (X_SIZE : Int) / 2 : Int) : ℚ) }
      let grid := store grid i j { grid i j with y := (((j.val : Int) - (Y_SIZE : Int) / 2 : Int) : ℚ) }
      let grid := store grid i j { grid i j with x_velocity := 0 }
      let grid := store grid i j { grid i j with y_velocity := 0 }
      let grid := store grid i j { grid i j with is_dead := 0 }
      grid) grid) grid

/-- The condition `abs(p.x) > X_LIMIT || abs(p.y) > Y_LIMIT`; the right operand
is evaluated only when the left one is false. -/
def beyond_limit (p : point_t) : Option Bool := do
  let ax ← abs_of_double p.x
  if ax > X_LIMIT then pure true
  else do
    let ay ← abs_of_double p.y
    pure (decide (ay > Y_LIMIT))

/-- The body of the inner loop of `update_grid` at index `(i, j)`. -/
def update_grid_body (cos sin : ℚ → ℚ) (i : Fin X_SIZE) (j : Fin Y_SIZE) (grid : grid_t) :
    Option grid_t :=
  if (grid i j).is_dead = 0 then do
    let vector := equation cos sin (grid i j).x (grid i j).y
    let grid := store grid i j { grid i j with x_velocity := vector.x }
    let grid := store grid i j { grid i j with y_velocity := vector.y }
    let grid := store grid i j { grid i j with x := (grid i j).x + (grid i j).x_velocity * TIME_STEP }
    let grid := store grid i j { grid i j with y := (grid i j).y + (grid i j).y_velocity * TIME_STEP }
    let beyond ← beyond_limit (grid i j)
    if beyond then
      let grid := store grid i j { grid i j with x_velocity := 0 }
      let grid := store grid i j { grid i j with y_velocity := 0 }
      let grid := store grid i j { grid i j with is_dead := 1 }
      pure grid
    else pure grid
  else pure grid

/-- The function `update_grid`. -/
def update_grid (cos sin : ℚ → ℚ) (grid : grid_t) : Option grid_t :=
  for_loop_ub X_SIZE (fun i grid =>
    for_loop_ub Y_SIZE (fun j grid => update_grid_body cos sin i j grid) grid) grid

/-! ## Output streams -/

/-- One value printed by a conversion specification, or literal text. -/
inductive field_t where
  | d (n : Int)
  | f (q : ℚ)
  | s (text : String)

/-- One line of text: its fields, separated by tabs in the file. -/
abbrev line_t : Type := List field_t

/-- The object a `FILE *` points to, together with its device.  `lines` is the
text the device accepts, `room` the number of further lines it accepts, `error`
the error indicator.  The stream is buffered, and how much the buffer takes is
not fixed by the program: `hold` tells, for the successive calls whose text the
device does not accept in full, whether the text stays in the buffer (`true`:
the call returns as if it had succeeded) or the buffer is written out and the
device refuses it (`false`, and when the list is exhausted).  `pending` tells
that the buffer holds text the device will not accept. -/
structure FILE where
  lines : List line_t
  room : Nat
  error : Bool
  hold : List Bool
  pending : Bool

/-- The call `fprintf(fp, ...)` printing the lines `text`.  When the device has
room for all of it the text is accepted and a non-negative value is returned.
Otherwise the device takes the lines it has room for and no more from then on;
the call either leaves the rest in the buffer and returns a non-negative
value, or writes the buffer out, is refused, loses the buffered text, sets the
error indicator and returns a negative value. -/
def fprintf (fp : FILE) (text : List line_t) : FILE × Int :=
  if text.length ≤ fp.room then
    ({ fp with lines := fp.lines ++ text, room := fp.room - text.length }, 0)
  else
    match fp.hold with
    | true :: hold =>
      ({ fp with lines := fp.lines ++ text.take fp.room, room := 0, hold := hold,
                 pending := true }, 0)
    | hold =>
      ({ fp with lines := fp.lines ++ text.take fp.room, room := 0, error := true,
                 hold := hold.tail, pending := false }, -1)

/-- The call `fclose(fp)`: the buffer is written out; when it holds text the
device will not accept the error indicator is set and a negative value is
returned. -/
def fclose (fp : FILE) : FILE × Int :=
  if fp.pending = true then ({ fp with error := true, pending := false }, -1) else (fp, 0)

/-- The function `print_grid`; `fp` is the global stream. -/
def print_grid (grid : grid_t) (fp : FILE) : grid_t × FILE :=
  for_loop X_SIZE (fun i s =>
    for_loop Y_SIZE (fun j s =>
      (s.1, (fprintf s.2 [[field_t.f (s.1 i j).x, field_t.f (s.1 i j).y]]).1)) s) (grid, fp)

/-- The function `print_lattice_velocities`; `fp` is the global stream. -/
def print_lattice_velocities (cos sin : ℚ → ℚ) (grid : grid_t) (fp : FILE) : grid_t × FILE :=
  for_loop X_SIZE (fun i s =>
    for_loop Y_SIZE (fun j s =>
      let vector := equation cos sin (s.1 i j).x (s.1 i j).y
      (s.1, (fprintf s.2 [[field_t.f vector.x, field_t.f vector.y]]).1)) s) (grid, fp)

/-- What is left when `main` returns: its return value, the local array,
`stdout` and the stream `fp` as `fclose` left it. -/
structure exit_t where
  status : Int
  grid : grid_t
  stdout : FILE
  fp : FILE

/-- The text of the first `fprintf` of `main`: `"%d\n%d\n%f\n%d\n"`. -/
def header_lines : List line_t :=
  [[field_t.d X_SIZE], [field_t.d Y_SIZE], [field_t.f TIME_STEP], [field_t.d NUMBER_OF_STEPS]]

/-- The body of the loop of `main`: `update_grid(grid); print_grid(grid);`. -/
def main_step (cos sin : ℚ → ℚ) (s : grid_t × FILE) : Option (grid_t × FILE) := do
  let grid ← update_grid cos sin s.1
  pure (print_grid grid s.2)

/-- The function `main`.  `grid` is the content of the uninitialised local
array, `fopen_result` what `fopen` returns (`none` for a null pointer, which the
following `fprintf` dereferences).  The result of no call is inspected, that
of `fclose` included.  Reaching the end of `main` returns 0. -/
def main (cos sin : ℚ → ℚ) (grid : grid_t) (stdout : FILE) (fopen_result : Option FILE) :
    Option exit_t := do
  let stdout := (fprintf stdout [[field_t.s "Simulating points...."]]).1
  let grid := init_grid grid
  let fp ← fopen_result
  let fp := (fprintf fp header_lines).1
  let s := print_lattice_velocities cos sin grid fp
  let s ← for_loop_ub NUMBER_OF_STEPS (fun _ s => main_step cos sin s) s
  let fp := (fclose s.2).1
  pure { status := 0, grid := s.1, stdout := stdout, fp := fp }

/-! ## Derived descriptions used in the statements -/

/-- A live point after the statements of the body of `update_grid` that precede
the death check: the velocity is stored and the position has moved. -/
def moved (cos sin : ℚ → ℚ) (p : point_t) : point_t :=
  { x := p.x + (equation cos sin p.x p.y).x * TIME_STEP,
    y := p.y + (equation cos sin p.x p.y).y * TIME_STEP,
    x_velocity := (equation cos sin p.x p.y).x,
    y_velocity := (equation cos sin p.x p.y).y,
    is_dead := p.is_dead }

/-- The three assignments of the death branch of `update_grid`. -/
def killed (p : point_t) : point_t :=
  { p with x_velocity := 0, y_velocity := 0, is_dead := 1 }

/-- The effect of one pass of the body of `update_grid` on the point it visits. -/
def update_point (cos sin : ℚ → ℚ) (p : point_t) : Option point_t :=
  if p.is_dead = 0 then
    (beyond_limit (moved cos sin p)).map fun b =>
      if b then killed (moved cos sin p) else moved cos sin p
  else some p

/-- The grid after `n` successive calls of `update_grid`. -/
def update_grid_n (cos sin : ℚ → ℚ) : Nat → grid_t → Option grid_t
  | 0, grid => some grid
  | n + 1, grid => (update_grid_n cos sin n grid).bind (update_grid cos sin)

/-- Every live point of the grid has both coordinates of magnitude below 83. -/
def live_points_bounded (grid : grid_t) : Prop :=
  ∀ (i : Fin X_SIZE) (j : Fin Y_SIZE), (grid i j).is_dead = 0 →
    |(grid i j).x| < 83 ∧ |(grid i j).y| < 83

/-- The index pairs in the order in which the nested loops visit them. -/
@[irreducible]
def cells : List (Fin X_SIZE × Fin Y_SIZE) :=
  (List.finRange X_SIZE).flatMap fun i => (List.finRange Y_SIZE).map fun j => (i, j)

/-- A rational function with the properties of `cos` that the proofs assume:
used to show that those assumptions can be met. -/
def cos_model (q : ℚ) : ℚ := (1 - q ^ 2) / (1 + q ^ 2)

/-- A rational function with the properties of `sin` that the proofs assume:
used to show that those assumptions can be met. -/
def sin_model (q : ℚ) : ℚ := 2 * q / (1 + q ^ 2)

/-- Some content of an uninitialised array. -/
def grid_garbage : grid_t :=
  fun _ _ => { x := 7, y := -3, x_velocity := 2, y_velocity := 5, is_dead := 9 }

/-- A grid whose points are all alive at `(82.5, 0)`. -/
def grid_past_limit : grid_t :=
  fun _ _ => { x := 165 / 2, y := 0, x_velocity := 0, y_velocity := 0, is_dead := 0 }

/-- A grid whose points are all alive at `(82, 0)`. -/
def grid_on_limit : grid_t :=
  fun _ _ => { x := 82, y := 0, x_velocity := 0, y_velocity := 0, is_dead := 0 }

/-- A grid with a dead point at `(0, 0)` and live points elsewhere. -/
def grid_one_dead : grid_t :=
  fun i j =>
    if i = 0 ∧ j = 0 then { x := 90, y := 1, x_velocity := 0, y_velocity := 0, is_dead := 1 }
    else { x := 1, y := 2, x_velocity := 0, y_velocity := 0, is_dead := 0 }

/-- A function bounded by 1 in magnitude, standing for `cos` where a dying point
is wanted: with it the field pushes every point along `x` at the speed `y`. -/
def cos_flat (_ : ℚ) : ℚ := -1

/-- A function bounded by 1 in magnitude, standing for `sin` next to `cos_flat`. -/
def sin_flat (_ : ℚ) : ℚ := 0

/-- The grid after `k` successive calls of `update_grid`, when they are all
defined. -/
def grid_after (cos sin : ℚ → ℚ) (k : Nat) (grid : grid_t) : grid_t :=
  (update_grid_n cos sin k grid).getD grid

/-- `n` iterations of a loop body that does not read the loop counter. -/
def iterate_ub {σ : Type} (F : σ → Option σ) : Nat → σ → Option σ
  | 0, s => some s
  | n + 1, s => (F s).bind (iterate_ub F n)

/-- One line for every point, the position, in the order of `cells`. -/
def position_lines (grid : grid_t) : List line_t :=
  cells.map fun c => [field_t.f (grid c.1 c.2).x, field_t.f (grid c.1 c.2).y]

/-- One line for every point, the field at its position, in the order of `cells`. -/
def velocity_lines (cos sin : ℚ → ℚ) (grid : grid_t) : List line_t :=
  cells.map fun c =>
    [field_t.f (equation cos sin (grid c.1 c.2).x (grid c.1 c.2).y).x,
     field_t.f (equation cos sin (grid c.1 c.2).x (grid c.1 c.2).y).y]

/-- An empty stream on a device with room for 2000000 lines. -/
def stream_roomy : FILE :=
  { lines := [], room := 2000000, error := false, hold := [], pending := false }

/-- A write of the stream was refused by the device: the refusal was reported
and the error indicator is set, or the refused text is still in the buffer. -/
def flagged (f : FILE) : Prop := f.error = true ∨ f.pending = true

/-- The stream `f'` is what calls of `fprintf` printing the lines `text` in all
make of the stream `f`: the device holds what it had room for, a refused write
leaves its mark (`flagged`), and when everything fitted the error indicator and
the buffer are as before. -/
def prints (f f' : FILE) (text : List line_t) : Prop :=
  f'.lines = f.lines ++ text.take f.room ∧
  f'.room = f.room - text.length ∧
  (flagged f → flagged f') ∧
  (f.room < text.length → flagged f') ∧
  (text.length ≤ f.room → f'.error = f.error ∧ f'.hold = f.hold ∧ f'.pending = f.pending)

/-- The step as a simultaneous map: every point is replaced by what the body
of the loop makes of it alone, provided the body is defined at every point. -/
def update_grid_simultaneous (cos sin : ℚ → ℚ) (grid : grid_t) : Option grid_t :=
  if h : ∀ (i : Fin X_SIZE) (j : Fin Y_SIZE), (update_point cos sin (grid i j)).isSome = true then
    some fun i j => (update_point cos sin (grid i j)).get (h i j)
  else none

/-! ## Lemmas -/

theorem store_same (g : grid_t) (i : Fin X_SIZE) (j : Fin Y_SIZE) (p : point_t) :
    store g i j p i j = p := by
  simp [store]

theorem store_other (g : grid_t) (i a : Fin X_SIZE) (j b : Fin Y_SIZE) (p : point_t)
    (h : ¬ (a = i ∧ b = j)) : store g i j p a b = g a b := by
  simp [store, h]

theorem store_store (g : grid_t) (i : Fin X_SIZE) (j : Fin Y_SIZE) (p q : point_t) :
    store (store g i j p) i j q = store g i j q := by
  funext a b
  by_cases h : a = i ∧ b = j <;> simp [store, h]

theorem store_self (g : grid_t) (i : Fin X_SIZE) (j : Fin Y_SIZE) :
    store g i j (g i j) = g := by
  funext a b
  by_cases h : a = i ∧ b = j
  · obtain ⟨rfl, rfl⟩ := h
    simp [store]
  · simp [store, h]

theorem update_grid_body_eq (cos sin : ℚ → ℚ) (i : Fin X_SIZE) (j : Fin Y_SIZE) (g : grid_t) :
    update_grid_body cos sin i j g = (update_point cos sin (g i j)).map (store g i j) := by
  unfold update_grid_body update_point moved killed
  by_cases hd : (g i j).is_dead = 0
  · simp only [hd, if_true, store_same, store_store]
    cases hb : beyond_limit _ with
    | none => simp [hb]
    | some b => 
      cases b <;> simp [hb, store_same, store_store]
  · simp [hd, store_self]

theorem trunc_abs (d : ℚ) : |trunc d| = ⌊|d|⌋ := by
  unfold trunc
  by_cases h : 0 ≤ d
  · rw [if_pos h, abs_of_nonneg h, abs_of_nonneg (Int.floor_nonneg.mpr h)]
  · have h' : d < 0 := lt_of_not_ge h
    rw [if_neg h, abs_of_neg h', Int.floor_neg]
    exact abs_of_nonpos (Int.ceil_le.mpr (by simpa using h'.le))

theorem lt_abs_trunc_iff (n : Int) (d : ℚ) : n < |trunc d| ↔ ((n : ℚ) + 1 ≤ |d|) := by
  rw [trunc_abs, ← Int.add_one_le_iff, Int.le_floor]
  push_cast
  rfl

theorem abs_of_double_eq (d : ℚ) (h : |d| < 2147483648) : abs_of_double d = some |trunc d| := by
  have h1 : ¬ ((2147483647 : Int) < |trunc d|) := by
    rw [lt_abs_trunc_iff]
    push_cast
    intro h2
    linarith
  have h2 : |trunc d| ≤ 2147483647 := not_lt.mp h1
  obtain ⟨h3, h4⟩ := abs_le.mp h2
  unfold abs_of_double double_to_int c_abs INT_MIN INT_MAX
  rw [if_pos ⟨by linarith, h4⟩]
  simp only [Option.some_bind]
  rw [if_neg]
  intro h5
  rw [h5] at h3
  norm_num at h3

theorem abs_of_double_eq_none (d : ℚ) (h : 2147483648 ≤ |d|) : abs_of_double d = none := by
  have h1 : (2147483647 : Int) < |trunc d| := by
    rw [lt_abs_trunc_iff]
    push_cast
    linarith
  unfold abs_of_double double_to_int c_abs INT_MIN INT_MAX
  by_cases h2 : (-2147483648 : Int) ≤ trunc d ∧ trunc d ≤ 2147483647
  · rw [if_pos h2]
    simp only [Option.some_bind]
    have h3 : trunc d = -2147483648 := by
      rcases lt_abs.mp h1 with h3 | h3
      · omega
      · omega
    rw [if_pos h3]
  · rw [if_neg h2]
    rfl

theorem foldl_nested {α β σ : Type} (l1 : List α) (l2 : List β) (body : α → β → σ → σ) (s : σ) :
    l1.foldl (fun s a => l2.foldl (fun s b => body a b s) s) s
      = (l1.flatMap fun a => l2.map fun b => (a, b)).foldl (fun s c => body c.1 c.2 s) s := by
  induction l1 generalizing s with
  | nil => rfl
  | cons a l1 ih =>
    rw [List.foldl_cons, List.flatMap_cons, List.foldl_append, List.foldl_map, ih]

theorem foldlM_nested {α β σ : Type} (l1 : List α) (l2 : List β) (body : α → β → σ → Option σ)
    (s : σ) :
    l1.foldlM (fun s a => l2.foldlM (fun s b => body a b s) s) s
      = (l1.flatMap fun a => l2.map fun b => (a, b)).foldlM (fun s c => body c.1 c.2 s) s := by
  induction l1 generalizing s with
  | nil => rfl
  | cons a l1 ih =>
    rw [List.foldlM_cons, List.flatMap_cons, List.foldlM_append, List.foldlM_map]
    congr 1
    funext s'
    exact ih s'

theorem mem_cells (c : Fin X_SIZE × Fin Y_SIZE) : c ∈ cells := by
  unfold cells
  rw [List.mem_flatMap]
  exact ⟨c.1, List.mem_finRange _, List.mem_map.mpr ⟨c.2, List.mem_finRange _, rfl⟩⟩

theorem nodup_cells : cells.Nodup := by
  unfold cells
  rw [List.nodup_flatMap]
  refine ⟨fun i _ => ?_, ?_⟩
  · exact (List.nodup_finRange _).map (fun a b h => by simpa using h)
  · refine (List.nodup_finRange _).pairwise_of_forall_ne ?_
    intro a _ b _ hab
    simp only [Function.onFun, List.Disjoint]
    intro c hc1 hc2
    simp only [List.mem_map] at hc1 hc2
    obtain ⟨_, _, rfl⟩ := hc1
    obtain ⟨_, _, h⟩ := hc2
    exact hab (by simpa using (congrArg Prod.fst h).symm)

theorem for_loop_cells {σ : Type} (body : Fin X_SIZE → Fin Y_SIZE → σ → σ) (s : σ) :
    for_loop X_SIZE (fun i s => for_loop Y_SIZE (fun j s => body i j s) s) s
      = cells.foldl (fun s c => body c.1 c.2 s) s := by
  unfold for_loop cells
  exact foldl_nested _ _ body s

theorem for_loop_ub_cells {σ : Type} (body : Fin X_SIZE → Fin Y_SIZE → σ → Option σ) (s : σ) :
    for_loop_ub X_SIZE (fun i s => for_loop_ub Y_SIZE (fun j s => body i j s) s) s
      = cells.foldlM (fun s c => body c.1 c.2 s) s := by
  unfold for_loop_ub cells
  exact foldlM_nested _ _ body s

theorem foldlM_store (F : Fin X_SIZE × Fin Y_SIZE → point_t → Option point_t)
    (l : List (Fin X_SIZE × Fin Y_SIZE)) (hl : l.Nodup) (g g' : grid_t) :
    l.foldlM (fun g c => (F c (g c.1 c.2)).map (store g c.1 c.2)) g = some g' ↔
      ∀ c : Fin X_SIZE × Fin Y_SIZE,
        (c ∈ l → F c (g c.1 c.2) = some (g' c.1 c.2)) ∧ (c ∉ l → g' c.1 c.2 = g c.1 c.2) := by
  induction l generalizing g with
  | nil =>
    simp only [List.foldlM_nil, List.not_mem_nil, false_implies, not_false_eq_true, true_implies,
      true_and]
    constructor
    · intro h c
      cases h
      rfl
    · intro h
      have : g = g' := by
        funext a b
        exact (h (a, b)).symm
      rw [this]
      rfl
  | cons c0 l ih =>
    obtain ⟨hc0, hl'⟩ := List.nodup_cons.mp hl
    rw [List.foldlM_cons]
    cases hF : F c0 (g c0.1 c0.2) with
    | none =>
      simp only [Option.map_none', Option.bind_eq_bind, Option.none_bind]
      constructor
      · intro h
        cases h
      · intro h
        have := (h c0).1 (List.mem_cons_self _ _)
        rw [hF] at this
        cases this
    | some p =>
      simp only [Option.map_some', Option.bind_eq_bind, Option.some_bind]
      rw [ih hl']
      constructor
      · intro h c
        by_cases hc : c = c0
        · subst hc
          refine ⟨fun _ => ?_, fun hn => absurd (List.mem_cons_self _ _) hn⟩
          rw [hF, (h c).2 hc0, store_same]
        · have hne : ¬ (c.1 = c0.1 ∧ c.2 = c0.2) := fun hh => hc (Prod.ext hh.1 hh.2)
          refine ⟨fun hm => ?_, fun hn => ?_⟩
          · have hm' : c ∈ l := (List.mem_cons.mp hm).resolve_left hc
            have := (h c).1 hm'
            rwa [store_other _ _ _ _ _ _ hne] at this
          · have hn' : c ∉ l := fun hm => hn (List.mem_cons_of_mem _ hm)
            rw [(h c).2 hn', store_other _ _ _ _ _ _ hne]
      · intro h c
        by_cases hc : c = c0
        · subst hc
          refine ⟨fun hm => absurd hm hc0, fun _ => ?_⟩
          have := (h c).1 (List.mem_cons_self _ _)
          rw [hF] at this
          rw [store_same]
          exact (Option.some.inj this).symm
        · have hne : ¬ (c.1 = c0.1 ∧ c.2 = c0.2) := fun hh => hc (Prod.ext hh.1 hh.2)
          rw [store_other _ _ _ _ _ _ hne]
          refine ⟨fun hm => (h c).1 (List.mem_cons_of_mem _ hm), fun hn => (h c).2 ?_⟩
          intro hm
          rcases List.mem_cons.mp hm with h1 | h1
          · exact hc h1
          · exact hn h1

theorem update_grid_eq_some_iff (cos sin : ℚ → ℚ) (g g' : grid_t) :
    update_grid cos sin g = some g' ↔
      ∀ (i : Fin X_SIZE) (j : Fin Y_SIZE), update_point cos sin (g i j) = some (g' i j) := by
  unfold update_grid
  rw [for_loop_ub_cells]
  simp only [update_grid_body_eq]
  rw [foldlM_store (fun _ p => update_point cos sin p) cells nodup_cells g g']
  constructor
  · intro h i j
    exact (h (i, j)).1 (mem_cells _)
  · intro h c
    exact ⟨fun _ => h c.1 c.2, fun hn => absurd (mem_cells c) hn⟩


theorem foldl_store (F : Fin X_SIZE × Fin Y_SIZE → point_t → point_t)
    (l : List (Fin X_SIZE × Fin Y_SIZE)) (hl : l.Nodup) (g : grid_t)
    (c : Fin X_SIZE × Fin Y_SIZE) :
    l.foldl (fun g c => store g c.1 c.2 (F c (g c.1 c.2))) g c.1 c.2
      = if c ∈ l then F c (g c.1 c.2) else g c.1 c.2 := by
  induction l generalizing g with
  | nil => simp
  | cons c0 l ih =>
    obtain ⟨hc0, hl'⟩ := List.nodup_cons.mp hl
    rw [List.foldl_cons, ih hl']
    by_cases hc : c = c0
    · subst hc
      simp [hc0, store_same]
    · have hne : ¬ (c.1 = c0.1 ∧ c.2 = c0.2) := fun hh => hc (Prod.ext hh.1 hh.2)
      simp [hc, store_other _ _ _ _ _ _ hne]

theorem init_grid_apply (grid : grid_t) (i : Fin X_SIZE) (j : Fin Y_SIZE) :
    init_grid grid i j
      = { x := (i.val : ℚ) - 20, y := (j.val : ℚ) - 20, x_velocity := 0, y_velocity := 0,
          is_dead := 0 } := by
  unfold init_grid
  rw [for_loop_cells]
  simp only [store_same, store_store]
  have h := foldl_store
    (fun c _ => { x := (((c.1.val : Int) - (X_SIZE : Int) / 2 : Int) : ℚ),
                  y := (((c.2.val : Int) - (Y_SIZE : Int) / 2 : Int) : ℚ),
                  x_velocity := 0, y_velocity := 0, is_dead := 0 })
    _ nodup_cells grid (i, j)
  rw [if_pos (mem_cells (i, j))] at h
  simp only at h
  rw [h]
  norm_num

theorem beyond_limit_eq (p : point_t) (hx : |p.x| < 2147483648) (hy : |p.y| < 2147483648) :
    beyond_limit p = some (decide (83 ≤ |p.x| ∨ 83 ≤ |p.y|)) := by
  unfold beyond_limit
  rw [abs_of_double_eq _ hx, abs_of_double_eq _ hy]
  have h1 : (|trunc p.x| > X_LIMIT) ↔ 83 ≤ |p.x| := by
    rw [gt_iff_lt, lt_abs_trunc_iff]
    unfold X_LIMIT
    norm_num
  have h2 : (|trunc p.y| > Y_LIMIT) ↔ 83 ≤ |p.y| := by
    rw [gt_iff_lt, lt_abs_trunc_iff]
    unfold Y_LIMIT
    norm_num
  by_cases hx83 : 83 ≤ |p.x|
  · simp [h1, hx83]
  · simp [h1, h2, hx83]

theorem beyond_limit_of_x (p : point_t) (hx : |p.x| < 2147483648) (hx83 : 83 ≤ |p.x|) :
    beyond_limit p = some true := by
  unfold beyond_limit
  rw [abs_of_double_eq _ hx]
  have h1 : (|trunc p.x| > X_LIMIT) := by
    rw [gt_iff_lt, lt_abs_trunc_iff]
    unfold X_LIMIT
    norm_num
    exact hx83
  simp [h1]

theorem update_point_dead (cos sin : ℚ → ℚ) (p : point_t) (h : p.is_dead ≠ 0) :
    update_point cos sin p = some p := by
  unfold update_point
  rw [if_neg h]

theorem update_point_live (cos sin : ℚ → ℚ) (p : point_t) (h : p.is_dead = 0)
    (hx : |(moved cos sin p).x| < 2147483648) (hy : |(moved cos sin p).y| < 2147483648) :
    update_point cos sin p
      = some (if 83 ≤ |(moved cos sin p).x| ∨ 83 ≤ |(moved cos sin p).y|
          then killed (moved cos sin p) else moved cos sin p) := by
  unfold update_point
  rw [if_pos h, beyond_limit_eq _ hx hy]
  simp

theorem update_point_cases (cos sin : ℚ → ℚ) (p p' : point_t) (h : p.is_dead = 0)
    (hp : update_point cos sin p = some p') :
    (beyond_limit (moved cos sin p) = some true ∧ p' = killed (moved cos sin p)) ∨
    (beyond_limit (moved cos sin p) = some false ∧ p' = moved cos sin p) := by
  unfold update_point at hp
  rw [if_pos h] at hp
  cases hb : beyond_limit (moved cos sin p) with
  | none => rw [hb] at hp; cases hp
  | some b =>
    rw [hb] at hp
    cases b
    · right
      simpa using hp.symm
    · left
      simpa using hp.symm

theorem abs_cos_model_le (q : ℚ) : |cos_model q| ≤ 1 := by
  unfold cos_model
  have h : (0 : ℚ) < 1 + q ^ 2 := by positivity
  rw [abs_le]
  constructor
  · rw [le_div_iff₀ h]
    nlinarith [sq_nonneg q]
  · rw [div_le_iff₀ h]
    nlinarith [sq_nonneg q]

theorem abs_sin_model_le (q : ℚ) : |sin_model q| ≤ 1 := by
  unfold sin_model
  have h : (0 : ℚ) < 1 + q ^ 2 := by positivity
  rw [abs_le]
  constructor
  · rw [le_div_iff₀ h]
    nlinarith [sq_nonneg (q + 1)]
  · rw [div_le_iff₀ h]
    nlinarith [sq_nonneg (q - 1)]

theorem abs_mul_le_of_abs_le_one (a b : ℚ) (hb : |b| ≤ 1) : |a * b| ≤ |a| := by
  rw [abs_mul]
  exact mul_le_of_le_one_right (abs_nonneg a) hb

theorem TIME_STEP_pos : 0 < TIME_STEP := by
  norm_num [TIME_STEP]

theorem TIME_STEP_le : TIME_STEP ≤ 1 / 100 := by
  norm_num [TIME_STEP]

theorem abs_mul_TIME_STEP_le (v b : ℚ) (h : |v| ≤ b) : |v * TIME_STEP| ≤ b / 100 := by
  rw [abs_mul, abs_of_pos TIME_STEP_pos]
  have h1 : |v| * TIME_STEP ≤ b * TIME_STEP := mul_le_mul_of_nonneg_right h TIME_STEP_pos.le
  have h2 : b * TIME_STEP ≤ b * (1 / 100) :=
    mul_le_mul_of_nonneg_left TIME_STEP_le ((abs_nonneg v).trans h)
  linarith

theorem moved_bounds (cos sin : ℚ → ℚ) (hcos : ∀ q, |cos q| ≤ 1) (hsin : ∀ q, |sin q| ≤ 1)
    (p : point_t) :
    |(moved cos sin p).x| ≤ |p.x| + |p.y| / 100 ∧ |(moved cos sin p).y| ≤ |p.y| + |p.x| / 100 := by
  unfold moved equation
  simp only
  have h1 : |(-p.y) * cos p.y| ≤ |p.y| := by
    have := abs_mul_le_of_abs_le_one (-p.y) (cos p.y) (hcos _)
    rwa [abs_neg] at this
  have h2 : |p.x * sin (-p.x)| ≤ |p.x| := abs_mul_le_of_abs_le_one _ _ (hsin _)
  constructor
  · calc |p.x + -p.y * cos p.y * TIME_STEP|
        ≤ |p.x| + |-p.y * cos p.y * TIME_STEP| := abs_add _ _
      _ ≤ |p.x| + |p.y| / 100 := by linarith [abs_mul_TIME_STEP_le _ _ h1]
  · calc |p.y + p.x * sin (-p.x) * TIME_STEP|
        ≤ |p.y| + |p.x * sin (-p.x) * TIME_STEP| := abs_add _ _
      _ ≤ |p.y| + |p.x| / 100 := by linarith [abs_mul_TIME_STEP_le _ _ h2]

theorem update_point_bounded (cos sin : ℚ → ℚ) (hcos : ∀ q, |cos q| ≤ 1)
    (hsin : ∀ q, |sin q| ≤ 1) (p : point_t) (hp : p.is_dead = 0 → |p.x| < 83 ∧ |p.y| < 83) :
    ∃ p', update_point cos sin p = some p' ∧ (p'.is_dead = 0 → |p'.x| < 83 ∧ |p'.y| < 83) := by
  by_cases hd : p.is_dead = 0
  · obtain ⟨hx, hy⟩ := hp hd
    obtain ⟨mx, my⟩ := moved_bounds cos sin hcos hsin p
    rw [update_point_live cos sin p hd (by linarith) (by linarith)]
    refine ⟨_, rfl, ?_⟩
    by_cases hb : 83 ≤ |(moved cos sin p).x| ∨ 83 ≤ |(moved cos sin p).y|
    · rw [if_pos hb]
      intro h
      simp [killed] at h
    · rw [if_neg hb]
      intro _
      rw [not_or] at hb
      exact ⟨lt_of_not_ge hb.1, lt_of_not_ge hb.2⟩
  · exact ⟨p, update_point_dead cos sin p hd, hp⟩

theorem update_grid_defined (cos sin : ℚ → ℚ) (g : grid_t)
    (h : ∀ (i : Fin X_SIZE) (j : Fin Y_SIZE), ∃ p, update_point cos sin (g i j) = some p) :
    ∃ g', update_grid cos sin g = some g' := by
  refine ⟨fun i j => (update_point cos sin (g i j)).getD (g i j), ?_⟩
  rw [update_grid_eq_some_iff]
  intro i j
  obtain ⟨p, hp⟩ := h i j
  simp [hp]

theorem update_grid_bounded (cos sin : ℚ → ℚ) (hcos : ∀ q, |cos q| ≤ 1)
    (hsin : ∀ q, |sin q| ≤ 1) (g : grid_t) (hg : live_points_bounded g) :
    ∃ g', update_grid cos sin g = some g' ∧ live_points_bounded g' := by
  obtain ⟨g', hg'⟩ := update_grid_defined cos sin g fun i j =>
    (update_point_bounded cos sin hcos hsin (g i j) (hg i j)).imp fun _ h => h.1
  refine ⟨g', hg', fun i j => ?_⟩
  obtain ⟨p, hp1, hp2⟩ := update_point_bounded cos sin hcos hsin (g i j) (hg i j)
  have := (update_grid_eq_some_iff cos sin g g').mp hg' i j
  rw [hp1] at this
  cases this
  exact hp2

theorem init_grid_bounded (grid : grid_t) : live_points_bounded (init_grid grid) := by
  intro i j _
  rw [init_grid_apply]
  simp only
  have hi : (i.val : ℚ) < 41 := by exact_mod_cast i.isLt
  have hj : (j.val : ℚ) < 41 := by exact_mod_cast j.isLt
  have hi0 : (0 : ℚ) ≤ (i.val : ℚ) := Nat.cast_nonneg _
  have hj0 : (0 : ℚ) ≤ (j.val : ℚ) := Nat.cast_nonneg _
  constructor <;> rw [abs_lt] <;> constructor <;> linarith

theorem update_grid_n_bounded (cos sin : ℚ → ℚ) (hcos : ∀ q, |cos q| ≤ 1)
    (hsin : ∀ q, |sin q| ≤ 1) (n : Nat) (g : grid_t) (hg : live_points_bounded g) :
    ∃ g', update_grid_n cos sin n g = some g' ∧ live_points_bounded g' := by
  induction n with
  | zero => exact ⟨g, rfl, hg⟩
  | succ n ih =>
    obtain ⟨g1, h1, hb1⟩ := ih
    obtain ⟨g2, h2, hb2⟩ := update_grid_bounded cos sin hcos hsin g1 hb1
    refine ⟨g2, ?_, hb2⟩
    simp [update_grid_n, h1, h2]

theorem moved_in_range (cos sin : ℚ → ℚ) (hcos : ∀ q, |cos q| ≤ 1) (hsin : ∀ q, |sin q| ≤ 1)
    (p : point_t) (hx : |p.x| < 83) (hy : |p.y| < 83) :
    |(moved cos sin p).x| < 2147483648 ∧ |(moved cos sin p).y| < 2147483648 := by
  obtain ⟨mx, my⟩ := moved_bounds cos sin hcos hsin p
  constructor <;> linarith

/-! ## The claims -/

/-- C1: after `init_grid`, whatever the array held before, the point at index
`(i, j)` is at `(i - 20, j - 20)`, has velocity `(0, 0)` and `is_dead = 0`; the
point `(0, 0)` is at `(-20, -20)` and the point `(20, 20)` at `(0, 0)`; the offset
20 is the integer quotient of 41 by 2. -/
theorem init_grid_centred (grid : grid_t) :
    (∀ (i : Fin X_SIZE) (j : Fin Y_SIZE),
      (init_grid grid i j).x = (i.val : ℚ) - 20 ∧
      (init_grid grid i j).y = (j.val : ℚ) - 20 ∧
      (init_grid grid i j).x_velocity = 0 ∧
      (init_grid grid i j).y_velocity = 0 ∧
      (init_grid grid i j).is_dead = 0) ∧
    ((init_grid grid 0 0).x = -20 ∧ (init_grid grid 0 0).y = -20) ∧
    ((init_grid grid 20 20).x = 0 ∧ (init_grid grid 20 20).y = 0) ∧
    (X_SIZE : Int) / 2 = 20 ∧ (Y_SIZE : Int) / 2 = 20 := by
  refine ⟨fun i j => ?_, ?_, ?_, by decide, by decide⟩
  · rw [init_grid_apply]
    exact ⟨rfl, rfl, rfl, rfl, rfl⟩
  · rw [init_grid_apply]
    norm_num
  · rw [init_grid_apply]
    have h20 : (20 : Fin X_SIZE).val = 20 := rfl
    simp only [h20]
    norm_num

theorem update_grid_position (cos sin : ℚ → ℚ) (g g' : grid_t) (i : Fin X_SIZE)
    (j : Fin Y_SIZE) (h : update_grid cos sin g = some g') (hd : (g i j).is_dead = 0) :
    (g' i j).x = (moved cos sin (g i j)).x ∧ (g' i j).y = (moved cos sin (g i j)).y := by
  have hp := (update_grid_eq_some_iff cos sin g g').mp h i j
  rcases update_point_cases cos sin _ _ hd hp with ⟨_, e⟩ | ⟨_, e⟩
  · rw [e]
    exact ⟨rfl, rfl⟩
  · rw [e]
    exact ⟨rfl, rfl⟩

/-- C2, counterexample: in the first step of the run the corner point `(0, 0)`
does not move to `x + vx * 0.01`: the step multiplies by `0.01F`, which is not
0.01. -/
theorem update_grid_step_not_nominal :
    ∃ grid', update_grid cos_model sin_model (init_grid grid_garbage) = some grid' ∧
      (init_grid grid_garbage 0 0).is_dead = 0 ∧
      (grid' 0 0).x ≠ (init_grid grid_garbage 0 0).x
        + (equation cos_model sin_model (init_grid grid_garbage 0 0).x
            (init_grid grid_garbage 0 0).y).x * (1 / 100) ∧
      (grid' 0 0).x = -20 + 20 * cos_model (-20) * (5368709 / 536870912) := by
  obtain ⟨grid', hg, _⟩ := update_grid_bounded cos_model sin_model abs_cos_model_le
    abs_sin_model_le (init_grid grid_garbage) (init_grid_bounded grid_garbage)
  have hd : (init_grid grid_garbage 0 0).is_dead = 0 := by rw [init_grid_apply]
  have hx := (update_grid_position cos_model sin_model _ grid' 0 0 hg hd).1
  rw [init_grid_apply] at hx
  simp only [moved, equation, TIME_STEP] at hx
  norm_num at hx
  refine ⟨grid', hg, hd, ?_, ?_⟩
  · rw [hx, init_grid_apply]
    simp only [equation]
    norm_num [cos_model]
  · rw [hx]

/-- C2, amended: when the death check of every live point is defined (the moved
coordinates fit an `int`), `update_grid` returns a grid in which every point
that was alive has moved from `(x, y)` to `(x + vx * TIME_STEP, y + vy * TIME_STEP)`,
with `(vx, vy) = equation(x, y) = (-y * cos(y), x * sin(-x))` taken at the
position before the step and `TIME_STEP = 0.01F = 5368709 / 536870912`, less
than 0.01 by less than `2.5e-10`; if the point is still alive its stored
velocity is `(vx, vy)`. -/
theorem update_grid_euler_step (cos sin : ℚ → ℚ) (grid : grid_t)
    (hdef : ∀ (i : Fin X_SIZE) (j : Fin Y_SIZE), (grid i j).is_dead = 0 →
      |(grid i j).x + (equation cos sin (grid i j).x (grid i j).y).x * TIME_STEP| < 2147483648 ∧
      |(grid i j).y + (equation cos sin (grid i j).x (grid i j).y).y * TIME_STEP| < 2147483648) :
    TIME_STEP = 5368709 / 536870912 ∧
    TIME_STEP < 1 / 100 ∧ 1 / 100 - TIME_STEP < 1 / 4000000000 ∧
    (∀ x y : ℚ, (equation cos sin x y).x = -y * cos y ∧ (equation cos sin x y).y = x * sin (-x)) ∧
    ∃ grid', update_grid cos sin grid = some grid' ∧
      ∀ (i : Fin X_SIZE) (j : Fin Y_SIZE), (grid i j).is_dead = 0 →
        (grid' i j).x
          = (grid i j).x + (equation cos sin (grid i j).x (grid i j).y).x * TIME_STEP ∧
        (grid' i j).y
          = (grid i j).y + (equation cos sin (grid i j).x (grid i j).y).y * TIME_STEP ∧
        ((grid' i j).is_dead = 0 →
          (grid' i j).x_velocity = (equation cos sin (grid i j).x (grid i j).y).x ∧
          (grid' i j).y_velocity = (equation cos sin (grid i j).x (grid i j).y).y) := by
  refine ⟨rfl, by norm_num [TIME_STEP], by norm_num [TIME_STEP], fun x y => ⟨rfl, rfl⟩, ?_⟩
  have hpt : ∀ (i : Fin X_SIZE) (j : Fin Y_SIZE), ∃ p, update_point cos sin (grid i j) = some p := by
    intro i j
    by_cases hd : (grid i j).is_dead = 0
    · exact ⟨_, update_point_live cos sin _ hd (hdef i j hd).1 (hdef i j hd).2⟩
    · exact ⟨_, update_point_dead cos sin _ hd⟩
  obtain ⟨grid', hg⟩ := update_grid_defined cos sin grid hpt
  refine ⟨grid', hg, fun i j hd => ?_⟩
  have h := (update_grid_eq_some_iff cos sin grid grid').mp hg i j
  rcases update_point_cases cos sin _ _ hd h with ⟨_, hp⟩ | ⟨_, hp⟩
  · rw [hp]
    refine ⟨rfl, rfl, fun hlive => ?_⟩
    simp [killed] at hlive
  · rw [hp]
    exact ⟨rfl, rfl, fun _ => ⟨rfl, rfl⟩⟩

/-- Witness of C2 as amended: the first step of the run, at the corner point
`(0, 0)`, which moves from `(-20, -20)`. -/
theorem update_grid_euler_step_witness :
    ∃ grid', update_grid cos_model sin_model (init_grid grid_garbage) = some grid' ∧
      (grid' 0 0).x = -20 + 20 * cos_model (-20) * TIME_STEP ∧
      (grid' 0 0).y = -20 + -20 * sin_model 20 * TIME_STEP := by
  have hb := init_grid_bounded grid_garbage
  obtain ⟨_, _, _, _, grid', hg, h⟩ := update_grid_euler_step cos_model sin_model
    (init_grid grid_garbage) (fun i j hd =>
      moved_in_range cos_model sin_model abs_cos_model_le abs_sin_model_le _
        (hb i j hd).1 (hb i j hd).2)
  refine ⟨grid', hg, ?_⟩
  have h0 := h 0 0 (by rw [init_grid_apply])
  rw [init_grid_apply] at h0
  simp only [equation] at h0
  norm_num at h0
  exact ⟨h0.1, by rw [h0.2.1]; ring⟩

/-- C3, the code at `grid_past_limit`: every point ends the call at `x = 82.5`,
beyond `X_LIMIT = 82`, and is still alive, because the check compares the
truncated magnitude 82. -/
theorem update_grid_past_limit_alive (cos sin : ℚ → ℚ) (hsin : ∀ q, |sin q| ≤ 1) :
    ∃ grid', update_grid cos sin grid_past_limit = some grid' ∧
      ∀ (i : Fin X_SIZE) (j : Fin Y_SIZE),
        (grid' i j).x = 165 / 2 ∧ (X_LIMIT : ℚ) < |(grid' i j).x| ∧
        |(grid' i j).y| ≤ (Y_LIMIT : ℚ) ∧ (grid' i j).is_dead = 0 := by
  have hx : (moved cos sin (grid_past_limit 0 0)).x = 165 / 2 := by
    simp [moved, equation, grid_past_limit]
  have hy : |(moved cos sin (grid_past_limit 0 0)).y| ≤ 1 := by
    have h := abs_mul_TIME_STEP_le (165 / 2 * sin (-(165 / 2))) (165 / 2)
      ((abs_mul_le_of_abs_le_one (165 / 2) (sin (-(165 / 2))) (hsin _)).trans
        (by norm_num [abs_of_pos]))
    have e : (moved cos sin (grid_past_limit 0 0)).y
        = 165 / 2 * sin (-(165 / 2)) * TIME_STEP := by
      simp [moved, equation, grid_past_limit]
    rw [e]
    refine h.trans ?_
    norm_num
  have hp : update_point cos sin (grid_past_limit 0 0)
      = some (moved cos sin (grid_past_limit 0 0)) := by
    rw [update_point_live cos sin _ rfl (by rw [hx]; norm_num [abs_of_pos]) (by linarith)]
    rw [if_neg]
    rw [not_or, hx]
    constructor
    · norm_num [abs_of_pos]
    · intro h
      linarith
  refine ⟨fun _ _ => moved cos sin (grid_past_limit 0 0), ?_, fun i j => ?_⟩
  · rw [update_grid_eq_some_iff]
    intro i j
    exact hp
  · refine ⟨hx, ?_, ?_, rfl⟩
    · rw [hx]
      norm_num [X_LIMIT, abs_of_pos]
    · refine hy.trans ?_
      norm_num [Y_LIMIT]

/-- Witness of the evaluation for C3, with `sin_model` for `sin`. -/
theorem update_grid_past_limit_alive_witness :
    ∃ grid', update_grid cos_model sin_model grid_past_limit = some grid' ∧
      (grid' 0 0).x = 165 / 2 ∧ (X_LIMIT : ℚ) < |(grid' 0 0).x| ∧ (grid' 0 0).is_dead = 0 := by
  obtain ⟨grid', hg, h⟩ := update_grid_past_limit_alive cos_model sin_model abs_sin_model_le
  exact ⟨grid', hg, (h 0 0).1, (h 0 0).2.1, (h 0 0).2.2.2⟩

theorem update_grid_n_succ (cos sin : ℚ → ℚ) (n : Nat) (g g' : grid_t) :
    update_grid_n cos sin (n + 1) g = some g' ↔
      ∃ g1, update_grid_n cos sin n g = some g1 ∧ update_grid cos sin g1 = some g' := by
  simp [update_grid_n, Option.bind_eq_some]

theorem update_grid_dead (cos sin : ℚ → ℚ) (g g' : grid_t) (i : Fin X_SIZE) (j : Fin Y_SIZE)
    (hdead : (g i j).is_dead ≠ 0) (h : update_grid cos sin g = some g') : g' i j = g i j := by
  have h1 := (update_grid_eq_some_iff cos sin g g').mp h i j
  rw [update_point_dead cos sin _ hdead] at h1
  exact (Option.some.inj h1).symm

theorem update_grid_n_dead (cos sin : ℚ → ℚ) (n : Nat) (g g' : grid_t) (i : Fin X_SIZE)
    (j : Fin Y_SIZE) (hdead : (g i j).is_dead ≠ 0) (h : update_grid_n cos sin n g = some g') :
    g' i j = g i j := by
  induction n generalizing g' with
  | zero =>
    cases h
    rfl
  | succ n ih =>
    obtain ⟨g1, h1, h2⟩ := (update_grid_n_succ cos sin n g g').mp h
    have e1 := ih g1 h1
    rw [← e1]
    exact update_grid_dead cos sin g1 g' i j (by rw [e1]; exact hdead) h2

/-- C4: a point that is dead before a call of `update_grid` is not touched by the
body (which is defined at it), so the call leaves its position, velocity and
flag unchanged; after any number `n` of further calls the point is the same
and still dead. -/
theorem dead_point_frozen (cos sin : ℚ → ℚ) (grid : grid_t) (i : Fin X_SIZE) (j : Fin Y_SIZE)
    (hdead : (grid i j).is_dead ≠ 0) :
    update_point cos sin (grid i j) = some (grid i j) ∧
    (∀ grid', update_grid cos sin grid = some grid' → grid' i j = grid i j) ∧
    ∀ (n : Nat) (grid' : grid_t), update_grid_n cos sin n grid = some grid' →
      grid' i j = grid i j ∧ (grid' i j).is_dead ≠ 0 := by
  refine ⟨update_point_dead cos sin _ hdead, fun grid' h => update_grid_dead cos sin _ _ i j hdead h,
    fun n grid' h => ?_⟩
  have e := update_grid_n_dead cos sin n grid grid' i j hdead h
  exact ⟨e, by rw [e]; exact hdead⟩

theorem grid_one_dead_bounded : live_points_bounded grid_one_dead := by
  intro i j h
  unfold grid_one_dead at h ⊢
  by_cases hc : i = 0 ∧ j = 0
  · rw [if_pos hc] at h
    simp at h
  · rw [if_neg hc]
    norm_num [abs_of_pos]

/-- Witness of C4: the dead point of `grid_one_dead` after 3 calls. -/
theorem dead_point_frozen_witness :
    ∃ grid', update_grid_n cos_model sin_model 3 grid_one_dead = some grid' ∧
      (grid' 0 0).x = 90 ∧ (grid' 0 0).y = 1 ∧ (grid' 0 0).is_dead = 1 := by
  obtain ⟨grid', hg, _⟩ := update_grid_n_bounded cos_model sin_model abs_cos_model_le
    abs_sin_model_le 3 grid_one_dead grid_one_dead_bounded
  have h := (dead_point_frozen cos_model sin_model grid_one_dead 0 0
    (by simp [grid_one_dead])).2.2 3 grid' hg
  refine ⟨grid', hg, ?_⟩
  rw [h.1]
  simp [grid_one_dead]

/-- C5: a live point whose moved position lies exactly on a limit, the other
coordinate being within its limit, is alive after the call and its stored
velocity is the evaluated one: the comparison with the limit is strict. -/
theorem boundary_point_stays_alive (cos sin : ℚ → ℚ) (grid : grid_t)
    (hdef : ∀ (i : Fin X_SIZE) (j : Fin Y_SIZE), (grid i j).is_dead = 0 →
      |(moved cos sin (grid i j)).x| < 2147483648 ∧ |(moved cos sin (grid i j)).y| < 2147483648)
    (i : Fin X_SIZE) (j : Fin Y_SIZE) (hlive : (grid i j).is_dead = 0)
    (hb : (|(moved cos sin (grid i j)).x| = (X_LIMIT : ℚ) ∧
            |(moved cos sin (grid i j)).y| ≤ (Y_LIMIT : ℚ)) ∨
          (|(moved cos sin (grid i j)).y| = (Y_LIMIT : ℚ) ∧
            |(moved cos sin (grid i j)).x| ≤ (X_LIMIT : ℚ))) :
    ∃ grid', update_grid cos sin grid = some grid' ∧
      (grid' i j).is_dead = 0 ∧
      (grid' i j).x = (moved cos sin (grid i j)).x ∧
      (grid' i j).y = (moved cos sin (grid i j)).y ∧
      (grid' i j).x_velocity = (equation cos sin (grid i j).x (grid i j).y).x ∧
      (grid' i j).y_velocity = (equation cos sin (grid i j).x (grid i j).y).y := by
  have hpt : ∀ (a : Fin X_SIZE) (b : Fin Y_SIZE), ∃ p, update_point cos sin (grid a b) = some p := by
    intro a b
    by_cases hd : (grid a b).is_dead = 0
    · exact ⟨_, update_point_live cos sin _ hd (hdef a b hd).1 (hdef a b hd).2⟩
    · exact ⟨_, update_point_dead cos sin _ hd⟩
  obtain ⟨grid', hg⟩ := update_grid_defined cos sin grid hpt
  refine ⟨grid', hg, ?_⟩
  have h := (update_grid_eq_some_iff cos sin grid grid').mp hg i j
  rw [update_point_live cos sin _ hlive (hdef i j hlive).1 (hdef i j hlive).2] at h
  have hx : |(moved cos sin (grid i j)).x| ≤ 82 ∧ |(moved cos sin (grid i j)).y| ≤ 82 := by
    have e1 : (X_LIMIT : ℚ) = 82 := by norm_num [X_LIMIT]
    have e2 : (Y_LIMIT : ℚ) = 82 := by norm_num [Y_LIMIT]
    rw [e1, e2] at hb
    rcases hb with ⟨h1, h2⟩ | ⟨h1, h2⟩
    · exact ⟨h1.le, h2⟩
    · exact ⟨h2, h1.le⟩
  rw [if_neg (by rw [not_or]; constructor <;> intro h' <;> linarith)] at h
  rw [← Option.some.inj h]
  exact ⟨hlive, rfl, rfl, rfl, rfl⟩

/-- Witness of C5: a point of `grid_on_limit` stays at `x = 82 = X_LIMIT` and
alive. -/
theorem boundary_point_stays_alive_witness :
    ∃ grid', update_grid cos_model sin_model grid_on_limit = some grid' ∧
      (grid' 0 0).is_dead = 0 ∧ (grid' 0 0).x = 82 := by
  have hx : ∀ (i : Fin X_SIZE) (j : Fin Y_SIZE),
      (moved cos_model sin_model (grid_on_limit i j)).x = 82 := by
    intro i j
    simp [moved, equation, grid_on_limit]
  have hy : ∀ (i : Fin X_SIZE) (j : Fin Y_SIZE),
      |(moved cos_model sin_model (grid_on_limit i j)).y| ≤ 82 / 100 := by
    intro i j
    have h := (moved_bounds cos_model sin_model abs_cos_model_le abs_sin_model_le
      (grid_on_limit i j)).2
    refine h.trans ?_
    norm_num [grid_on_limit, abs_of_pos]
  obtain ⟨grid', hg, h0, h1, _⟩ := boundary_point_stays_alive cos_model sin_model grid_on_limit
    (fun i j _ => ⟨by rw [hx]; norm_num [abs_of_pos], by linarith [hy i j]⟩) 0 0 rfl
    (Or.inl ⟨by rw [hx]; norm_num [X_LIMIT, abs_of_pos], by
      refine (hy 0 0).trans ?_
      norm_num [Y_LIMIT]⟩)
  exact ⟨grid', hg, h0, by rw [h1, hx]⟩

theorem update_point_dead_velocity (cos sin : ℚ → ℚ) (p p' : point_t)
    (hp : p.is_dead ≠ 0 → p.x_velocity = 0 ∧ p.y_velocity = 0)
    (h : update_point cos sin p = some p') (hdead : p'.is_dead ≠ 0) :
    p'.x_velocity = 0 ∧ p'.y_velocity = 0 := by
  by_cases hd : p.is_dead = 0
  · rcases update_point_cases cos sin p p' hd h with ⟨_, e⟩ | ⟨_, e⟩
    · rw [e]
      exact ⟨rfl, rfl⟩
    · rw [e] at hdead
      exact absurd hd hdead
  · rw [update_point_dead cos sin p hd] at h
    cases h
    exact hp hd

/-- C6: in every grid reached from `init_grid` by `n` calls of `update_grid`,
every dead point has velocity `(0, 0)`. -/
theorem dead_points_have_zero_velocity (cos sin : ℚ → ℚ) (n : Nat) (grid0 grid : grid_t)
    (hreach : update_grid_n cos sin n (init_grid grid0) = some grid)
    (i : Fin X_SIZE) (j : Fin Y_SIZE) (hdead : (grid i j).is_dead ≠ 0) :
    (grid i j).x_velocity = 0 ∧ (grid i j).y_velocity = 0 := by
  induction n generalizing grid with
  | zero =>
    cases hreach
    rw [init_grid_apply] at hdead
    exact absurd rfl hdead
  | succ n ih =>
    obtain ⟨g1, h1, h2⟩ := (update_grid_n_succ cos sin n _ grid).mp hreach
    exact update_point_dead_velocity cos sin (g1 i j) (grid i j) (ih g1 h1)
      ((update_grid_eq_some_iff cos sin g1 grid).mp h2 i j) hdead

theorem abs_cos_flat_le (q : ℚ) : |cos_flat q| ≤ 1 := by
  simp [cos_flat]

theorem abs_sin_flat_le (q : ℚ) : |sin_flat q| ≤ 1 := by
  simp [sin_flat]

theorem flat_corner_alive (grid0 : grid_t) (n : Nat) (hn : n < 316) (grid : grid_t)
    (h : update_grid_n cos_flat sin_flat n (init_grid grid0) = some grid) :
    (grid 40 40).x = 20 + (n : ℚ) * (20 * TIME_STEP) ∧ (grid 40 40).y = 20 ∧
      (grid 40 40).is_dead = 0 := by
  induction n generalizing grid with
  | zero =>
    cases h
    rw [init_grid_apply]
    have h40 : (40 : Fin X_SIZE).val = 40 := rfl
    simp only [h40]
    norm_num
  | succ n ih =>
    obtain ⟨g1, h1, h2⟩ := (update_grid_n_succ cos_flat sin_flat n _ grid).mp h
    obtain ⟨ex, ey, ed⟩ := ih (by omega) g1 h1
    have hn' : ((n : ℚ) + 1) ≤ 315 := by exact_mod_cast Nat.lt_succ_iff.mp hn
    have hn0 : (0 : ℚ) ≤ (n : ℚ) := Nat.cast_nonneg n
    have mx : (moved cos_flat sin_flat (g1 40 40)).x = 20 + ((n : ℚ) + 1) * (20 * TIME_STEP) := by
      simp only [moved, equation, cos_flat, sin_flat, ex, ey]
      ring
    have my : (moved cos_flat sin_flat (g1 40 40)).y = 20 := by
      simp only [moved, equation, cos_flat, sin_flat, ex, ey]
      ring
    have hp := (update_grid_eq_some_iff cos_flat sin_flat g1 grid).mp h2 40 40
    have hlt : 20 + ((n : ℚ) + 1) * (20 * TIME_STEP) < 83 := by
      unfold TIME_STEP
      linarith
    have hpos : 0 < 20 + ((n : ℚ) + 1) * (20 * TIME_STEP) := by
      unfold TIME_STEP
      linarith
    have ax : |(moved cos_flat sin_flat (g1 40 40)).x| = 20 + ((n : ℚ) + 1) * (20 * TIME_STEP) := by
      rw [mx, abs_of_pos hpos]
    have ay : |(moved cos_flat sin_flat (g1 40 40)).y| = 20 := by
      rw [my]
      norm_num [abs_of_pos]
    rw [update_point_live cos_flat sin_flat _ ed (by rw [ax]; linarith) (by rw [ay]; norm_num),
      if_neg (by rw [not_or, ax, ay]; constructor <;> intro h' <;> linarith)] at hp
    rw [← Option.some.inj hp]
    refine ⟨?_, my, ed⟩
    rw [mx]
    push_cast
    ring

theorem flat_corner_dies (grid0 grid : grid_t)
    (h : update_grid_n cos_flat sin_flat 316 (init_grid grid0) = some grid) :
    (grid 40 40).is_dead = 1 ∧ (grid 40 40).x = 20 + 316 * (20 * TIME_STEP) := by
  obtain ⟨g1, h1, h2⟩ := (update_grid_n_succ cos_flat sin_flat 315 _ grid).mp h
  obtain ⟨ex, ey, ed⟩ := flat_corner_alive grid0 315 (by norm_num) g1 h1
  have mx : (moved cos_flat sin_flat (g1 40 40)).x = 20 + 316 * (20 * TIME_STEP) := by
    simp only [moved, equation, cos_flat, sin_flat, ex, ey]
    push_cast
    ring
  have my : (moved cos_flat sin_flat (g1 40 40)).y = 20 := by
    simp only [moved, equation, cos_flat, sin_flat, ex, ey]
    ring
  have hp := (update_grid_eq_some_iff cos_flat sin_flat g1 grid).mp h2 40 40
  rw [update_point_live cos_flat sin_flat _ ed (by rw [mx]; norm_num [abs_of_pos, TIME_STEP])
      (by rw [my]; norm_num [abs_of_pos]),
    if_pos (Or.inl (by rw [mx]; norm_num [abs_of_pos, TIME_STEP]))] at hp
  rw [← Option.some.inj hp]
  exact ⟨rfl, mx⟩

/-- Witness of C6: with `cos_flat` the corner point `(40, 40)` drifts from
`x = 20` at the rate `20 * TIME_STEP` a step and dies at the 316th call, beyond
`x = 83`; its velocity is then `(0, 0)`. -/
theorem dead_points_have_zero_velocity_witness :
    ∃ grid, update_grid_n cos_flat sin_flat 316 (init_grid grid_garbage) = some grid ∧
      (grid 40 40).is_dead = 1 ∧ (grid 40 40).x_velocity = 0 ∧ (grid 40 40).y_velocity = 0 := by
  obtain ⟨grid, hg, _⟩ := update_grid_n_bounded cos_flat sin_flat abs_cos_flat_le abs_sin_flat_le
    316 (init_grid grid_garbage) (init_grid_bounded grid_garbage)
  have hd := (flat_corner_dies grid_garbage grid hg).1
  exact ⟨grid, hg, hd, dead_points_have_zero_velocity cos_flat sin_flat 316 grid_garbage grid hg
    40 40 (by rw [hd]; exact one_ne_zero)⟩

/-! ## Streams and the run -/

theorem flatMap_map_getElem? {α β γ : Type} (f : α → β → γ) (l1 : List α) (l2 : List β)
    (a b : Nat) (ha : a < l1.length) (hb : b < l2.length) :
    (l1.flatMap fun x => l2.map (f x))[a * l2.length + b]? = some (f l1[a] l2[b]) := by
  induction l1 generalizing a with
  | nil => simp at ha
  | cons x l1 ih =>
    rw [List.flatMap_cons]
    cases a with
    | zero =>
      rw [List.getElem?_append_left (by simpa using hb)]
      simp [List.getElem?_eq_getElem hb]
    | succ a =>
      have ha' : a < l1.length := by simpa using ha
      rw [List.getElem?_append_right (by rw [List.length_map]; nlinarith)]
      have e : (a + 1) * l2.length + b - (List.map (f x) l2).length = a * l2.length + b := by
        rw [List.length_map, Nat.add_mul, Nat.one_mul]
        omega
      rw [e, ih a ha']
      simp

theorem length_flatMap_map {α β γ : Type} (f : α → β → γ) (l1 : List α) (l2 : List β) :
    (l1.flatMap fun x => l2.map (f x)).length = l1.length * l2.length := by
  induction l1 with
  | nil => simp
  | cons x l1 ih =>
    rw [List.flatMap_cons, List.length_append, ih, List.length_map, List.length_cons,
      Nat.add_mul, Nat.one_mul, Nat.add_comm]

theorem length_cells : cells.length = X_SIZE * Y_SIZE := by
  unfold cells
  rw [length_flatMap_map, List.length_finRange]

theorem cells_getElem? (i : Fin X_SIZE) (j : Fin Y_SIZE) :
    cells[i.val * Y_SIZE + j.val]? = some (i, j) := by
  unfold cells
  have h := flatMap_map_getElem? (fun (x : Fin X_SIZE) (y : Fin Y_SIZE) => (x, y))
    (List.finRange X_SIZE) (List.finRange Y_SIZE) i.val j.val
    (by rw [List.length_finRange]; exact i.isLt) (by rw [List.length_finRange]; exact j.isLt)
  have e : i.val * Y_SIZE + j.val = i.val * (List.finRange Y_SIZE).length + j.val := by
    rw [List.length_finRange]
  rw [e, h, List.getElem_finRange, List.getElem_finRange]
  rfl

theorem length_position_lines (g : grid_t) : (position_lines g).length = X_SIZE * Y_SIZE := by
  rw [position_lines, List.length_map, length_cells]

theorem length_velocity_lines (cos sin : ℚ → ℚ) (g : grid_t) :
    (velocity_lines cos sin g).length = X_SIZE * Y_SIZE := by
  rw [velocity_lines, List.length_map, length_cells]

theorem position_lines_getElem? (g : grid_t) (i : Fin X_SIZE) (j : Fin Y_SIZE) :
    (position_lines g)[i.val * Y_SIZE + j.val]?
      = some [field_t.f (g i j).x, field_t.f (g i j).y] := by
  rw [position_lines, List.getElem?_map, cells_getElem?]
  rfl

theorem velocity_lines_getElem? (cos sin : ℚ → ℚ) (g : grid_t) (i : Fin X_SIZE)
    (j : Fin Y_SIZE) :
    (velocity_lines cos sin g)[i.val * Y_SIZE + j.val]?
      = some [field_t.f (equation cos sin (g i j).x (g i j).y).x,
              field_t.f (equation cos sin (g i j).x (g i j).y).y] := by
  rw [velocity_lines, List.getElem?_map, cells_getElem?]
  rfl

theorem fprintf_prints (f : FILE) (text : List line_t) : prints f (fprintf f text).1 text := by
  unfold fprintf prints flagged
  split
  · rename_i h
    refine ⟨?_, rfl, fun hf => hf, fun hlt => absurd h (Nat.not_le.mpr hlt),
      fun _ => ⟨rfl, rfl, rfl⟩⟩
    simp only
    rw [List.take_of_length_le h]
  · rename_i h
    split
    · refine ⟨rfl, ?_, fun _ => Or.inr rfl, fun _ => Or.inr rfl, fun h1 => absurd h1 h⟩
      simp only
      omega
    · refine ⟨rfl, ?_, fun _ => Or.inl rfl, fun _ => Or.inl rfl, fun h1 => absurd h1 h⟩
      simp only
      omega

theorem prints_refl (f : FILE) : prints f f [] := by
  refine ⟨?_, ?_, fun h => h, fun h => ?_, fun _ => ⟨rfl, rfl, rfl⟩⟩
  · simp
  · simp
  · simp at h

theorem prints_trans {f f1 f2 : FILE} {t1 t2 : List line_t} (h1 : prints f f1 t1)
    (h2 : prints f1 f2 t2) : prints f f2 (t1 ++ t2) := by
  obtain ⟨a1, b1, c1, d1, e1⟩ := h1
  obtain ⟨a2, b2, c2, d2, e2⟩ := h2
  refine ⟨?_, ?_, fun h => c2 (c1 h), fun h => ?_, fun h => ?_⟩
  · rw [a2, a1, b1, List.take_append_eq_append_take, List.append_assoc]
  · rw [b2, b1, List.length_append, Nat.sub_sub]
  · rw [List.length_append] at h
    by_cases h0 : f.room < t1.length
    · exact c2 (d1 h0)
    · refine d2 ?_
      rw [b1]
      omega
  · rw [List.length_append] at h
    obtain ⟨x1, y1, z1⟩ := e1 (by omega)
    obtain ⟨x2, y2, z2⟩ := e2 (by rw [b1]; omega)
    exact ⟨x2.trans x1, y2.trans y1, z2.trans z1⟩

theorem prints_lines_of_room {f f1 : FILE} {t : List line_t} (h : prints f f1 t)
    (hroom : t.length ≤ f.room) : f1.lines = f.lines ++ t := by
  rw [h.1, List.take_of_length_le hroom]

theorem fclose_lines (f : FILE) : (fclose f).1.lines = f.lines := by
  unfold fclose
  split <;> rfl

theorem print_fold_grid (line : Fin X_SIZE × Fin Y_SIZE → grid_t → line_t)
    (l : List (Fin X_SIZE × Fin Y_SIZE)) (g : grid_t) (f : FILE) :
    (l.foldl (fun s c => (s.1, (fprintf s.2 [line c s.1]).1)) (g, f)).1 = g := by
  induction l generalizing f with
  | nil => rfl
  | cons c l ih => rw [List.foldl_cons, ih]

theorem print_fold_prints (line : Fin X_SIZE × Fin Y_SIZE → grid_t → line_t)
    (l : List (Fin X_SIZE × Fin Y_SIZE)) (g : grid_t) (f : FILE) :
    prints f (l.foldl (fun s c => (s.1, (fprintf s.2 [line c s.1]).1)) (g, f)).2
      (l.map fun c => line c g) := by
  induction l generalizing f with
  | nil => exact prints_refl f
  | cons c l ih =>
    rw [List.foldl_cons, List.map_cons, ← List.singleton_append]
    exact prints_trans (fprintf_prints f [line c g]) (ih (fprintf f [line c g]).1)

theorem print_grid_grid (g : grid_t) (f : FILE) : (print_grid g f).1 = g := by
  unfold print_grid
  rw [for_loop_cells]
  exact print_fold_grid (fun c g => [field_t.f (g c.1 c.2).x, field_t.f (g c.1 c.2).y]) _ g f

theorem print_grid_prints (g : grid_t) (f : FILE) :
    prints f (print_grid g f).2 (position_lines g) := by
  unfold print_grid
  rw [for_loop_cells]
  exact print_fold_prints (fun c g => [field_t.f (g c.1 c.2).x, field_t.f (g c.1 c.2).y])
    cells g f

theorem print_grid_ok (g : grid_t) (f : FILE) (hroom : X_SIZE * Y_SIZE ≤ f.room) :
    (print_grid g f).2.lines = f.lines ++ position_lines g :=
  prints_lines_of_room (print_grid_prints g f) (by rw [length_position_lines]; exact hroom)

theorem print_lattice_velocities_grid (cos sin : ℚ → ℚ) (g : grid_t) (f : FILE) :
    (print_lattice_velocities cos sin g f).1 = g := by
  unfold print_lattice_velocities
  rw [for_loop_cells]
  exact print_fold_grid (fun c g => [field_t.f (equation cos sin (g c.1 c.2).x (g c.1 c.2).y).x,
    field_t.f (equation cos sin (g c.1 c.2).x (g c.1 c.2).y).y]) _ g f

theorem print_lattice_velocities_prints (cos sin : ℚ → ℚ) (g : grid_t) (f : FILE) :
    prints f (print_lattice_velocities cos sin g f).2 (velocity_lines cos sin g) := by
  unfold print_lattice_velocities
  rw [for_loop_cells]
  exact print_fold_prints
    (fun c g => [field_t.f (equation cos sin (g c.1 c.2).x (g c.1 c.2).y).x,
      field_t.f (equation cos sin (g c.1 c.2).x (g c.1 c.2).y).y]) cells g f

theorem print_lattice_velocities_ok (cos sin : ℚ → ℚ) (g : grid_t) (f : FILE)
    (hroom : X_SIZE * Y_SIZE ≤ f.room) :
    (print_lattice_velocities cos sin g f).2.lines = f.lines ++ velocity_lines cos sin g :=
  prints_lines_of_room (print_lattice_velocities_prints cos sin g f)
    (by rw [length_velocity_lines]; exact hroom)

theorem foldlM_const {α σ : Type} (F : σ → Option σ) (l : List α) (s : σ) :
    l.foldlM (fun s _ => F s) s = iterate_ub F l.length s := by
  induction l generalizing s with
  | nil => rfl
  | cons a l ih =>
    rw [List.foldlM_cons, List.length_cons, iterate_ub]
    cases F s with
    | none => rfl
    | some s' => exact ih s'

theorem for_loop_ub_const {σ : Type} (F : σ → Option σ) (n : Nat) (s : σ) :
    for_loop_ub n (fun _ s => F s) s = iterate_ub F n s := by
  unfold for_loop_ub
  rw [foldlM_const, List.length_finRange]

theorem update_grid_n_succ_head (cos sin : ℚ → ℚ) (n : Nat) (g : grid_t) :
    update_grid_n cos sin (n + 1) g = (update_grid cos sin g).bind (update_grid_n cos sin n) := by
  induction n with
  | zero =>
    show (some g).bind (update_grid cos sin) = (update_grid cos sin g).bind (fun g => some g)
    rw [Option.some_bind, Option.bind_some]
  | succ n ih =>
    show (update_grid_n cos sin (n + 1) g).bind (update_grid cos sin) = _
    rw [ih, Option.bind_assoc]
    rfl

theorem update_grid_n_eq_grid_after (cos sin : ℚ → ℚ) (hcos : ∀ q, |cos q| ≤ 1)
    (hsin : ∀ q, |sin q| ≤ 1) (n : Nat) (g : grid_t) (hg : live_points_bounded g) :
    update_grid_n cos sin n g = some (grid_after cos sin n g) ∧
      live_points_bounded (grid_after cos sin n g) := by
  obtain ⟨g', h, hb⟩ := update_grid_n_bounded cos sin hcos hsin n g hg
  have e : grid_after cos sin n g = g' := by
    simp [grid_after, h]
  rw [e]
  exact ⟨h, hb⟩

theorem grid_after_succ (cos sin : ℚ → ℚ) (hcos : ∀ q, |cos q| ≤ 1) (hsin : ∀ q, |sin q| ≤ 1)
    (n : Nat) (g g1 : grid_t) (hg : live_points_bounded g) (h1 : update_grid cos sin g = some g1) :
    grid_after cos sin (n + 1) g = grid_after cos sin n g1 := by
  have hb1 : live_points_bounded g1 := by
    obtain ⟨g', h, hb⟩ := update_grid_bounded cos sin hcos hsin g hg
    rw [h1] at h
    cases h
    exact hb
  have e1 := (update_grid_n_eq_grid_after cos sin hcos hsin (n + 1) g hg).1
  have e2 := (update_grid_n_eq_grid_after cos sin hcos hsin n g1 hb1).1
  rw [update_grid_n_succ_head, h1, Option.some_bind, e2] at e1
  exact (Option.some.inj e1).symm

theorem grid_after_zero (cos sin : ℚ → ℚ) (g : grid_t) : grid_after cos sin 0 g = g := by
  simp [grid_after, update_grid_n]

theorem update_grid_grid_after (cos sin : ℚ → ℚ) (hcos : ∀ q, |cos q| ≤ 1)
    (hsin : ∀ q, |sin q| ≤ 1) (k : Nat) (g : grid_t) (hg : live_points_bounded g) :
    update_grid cos sin (grid_after cos sin k g) = some (grid_after cos sin (k + 1) g) := by
  have e1 := (update_grid_n_eq_grid_after cos sin hcos hsin (k + 1) g hg).1
  have e2 := (update_grid_n_eq_grid_after cos sin hcos hsin k g hg).1
  rw [update_grid_n, e2, Option.some_bind] at e1
  exact e1



theorem main_step_eq (cos sin : ℚ → ℚ) (g g1 : grid_t) (f : FILE)
    (h1 : update_grid cos sin g = some g1) :
    main_step cos sin (g, f) = some (g1, (print_grid g1 f).2) := by
  have e : print_grid g1 f = (g1, (print_grid g1 f).2) := by
    have h := print_grid_grid g1 f
    generalize print_grid g1 f = s at h ⊢
    cases s
    simp only at h
    rw [h]
  unfold main_step
  simp only [h1, Option.bind_eq_bind, Option.some_bind, Option.pure_def]
  exact congrArg some e

theorem iterate_ub_zero {σ : Type} (F : σ → Option σ) (s : σ) : iterate_ub F 0 s = some s := by
  rw [iterate_ub]

theorem iterate_ub_succ {σ : Type} (F : σ → Option σ) (n : Nat) (s s1 : σ) (h : F s = some s1) :
    iterate_ub F (n + 1) s = iterate_ub F n s1 := by
  rw [iterate_ub, h, Option.some_bind]

theorem main_loop_prints (cos sin : ℚ → ℚ) (hcos : ∀ q, |cos q| ≤ 1)
    (hsin : ∀ q, |sin q| ≤ 1) (n : Nat) (g : grid_t) (f : FILE) (hg : live_points_bounded g) :
    ∃ f', iterate_ub (main_step cos sin) n (g, f) = some (grid_after cos sin n g, f') ∧
      prints f f' ((List.range n).flatMap fun k => position_lines (grid_after cos sin (k + 1) g)) := by
  induction n generalizing g f with
  | zero =>
    refine ⟨f, by rw [iterate_ub_zero, grid_after_zero], ?_⟩
    rw [List.range_zero, List.flatMap_nil]
    exact prints_refl f
  | succ n ih =>
    obtain ⟨g1, h1, hb1⟩ := update_grid_bounded cos sin hcos hsin g hg
    obtain ⟨f', hf', hp⟩ := ih g1 (print_grid g1 f).2 hb1
    have el : ((List.range (n + 1)).flatMap fun k => position_lines (grid_after cos sin (k + 1) g))
        = position_lines g1 ++
          (List.range n).flatMap fun k => position_lines (grid_after cos sin (k + 1) g1) := by
      have e0 : grid_after cos sin (0 + 1) g = g1 := by
        rw [grid_after_succ cos sin hcos hsin 0 g g1 hg h1, grid_after_zero]
      have ek : ∀ k, grid_after cos sin (k + 1 + 1) g = grid_after cos sin (k + 1) g1 :=
        fun k => grid_after_succ cos sin hcos hsin (k + 1) g g1 hg h1
      rw [List.range_succ_eq_map, List.flatMap_cons, List.flatMap_map, e0]
      simp only [Nat.succ_eq_add_one, ek]
    refine ⟨f', ?_, ?_⟩
    · rw [iterate_ub_succ _ n _ _ (main_step_eq cos sin g g1 f h1), hf',
        grid_after_succ cos sin hcos hsin n g g1 hg h1]
    · rw [el]
      exact prints_trans (print_grid_prints g1 f) hp

theorem print_lattice_velocities_eq (cos sin : ℚ → ℚ) (g : grid_t) (f : FILE) :
    print_lattice_velocities cos sin g f = (g, (print_lattice_velocities cos sin g f).2) := by
  have h := print_lattice_velocities_grid cos sin g f
  generalize print_lattice_velocities cos sin g f = s at h ⊢
  cases s
  simp only at h
  rw [h]

theorem main_eq (cos sin : ℚ → ℚ) (grid : grid_t) (stdout fp : FILE) (g' : grid_t) (f' : FILE)
    (h : iterate_ub (main_step cos sin) NUMBER_OF_STEPS
      (init_grid grid, (print_lattice_velocities cos sin (init_grid grid)
        (fprintf fp header_lines).1).2) = some (g', f')) :
    main cos sin grid stdout (some fp)
      = some { status := 0, grid := g',
               stdout := (fprintf stdout [[field_t.s "Simulating points...."]]).1,
               fp := (fclose f').1 } := by
  unfold main
  rw [Option.bind_eq_bind, Option.some_bind]
  simp only []
  rw [Option.bind_eq_bind, for_loop_ub_const, print_lattice_velocities_eq, h, Option.some_bind]
  rfl

theorem length_header_lines : header_lines.length = 4 := rfl

theorem length_flatMap_range {α : Type} (f : Nat → List α) (m n : Nat)
    (hf : ∀ k, (f k).length = m) : ((List.range n).flatMap f).length = n * m := by
  induction n with
  | zero => simp
  | succ n ih =>
    rw [List.range_succ, List.flatMap_append, List.length_append, ih]
    simp only [List.flatMap_cons, List.flatMap_nil, List.append_nil, hf]
    rw [Nat.add_mul, Nat.one_mul]

theorem flatMap_range_getElem? {α : Type} (f : Nat → List α) (m n k o : Nat)
    (hf : ∀ k, (f k).length = m) (hk : k < n) (ho : o < m) :
    ((List.range n).flatMap f)[k * m + o]? = (f k)[o]? := by
  induction n with
  | zero => omega
  | succ n ih =>
    rw [List.range_succ, List.flatMap_append]
    have hl := length_flatMap_range f m n hf
    simp only [List.flatMap_cons, List.flatMap_nil, List.append_nil]
    by_cases hkn : k < n
    · have hlt : k * m + o < ((List.range n).flatMap f).length := by
        rw [hl]
        calc k * m + o < k * m + m := by omega
          _ = (k + 1) * m := by rw [Nat.add_mul, Nat.one_mul]
          _ ≤ n * m := Nat.mul_le_mul_right m hkn
      rw [List.getElem?_append_left hlt]
      exact ih hkn
    · have hkn' : k = n := by omega
      subst hkn'
      rw [List.getElem?_append_right (by rw [hl]; omega), hl]
      congr 1
      omega

theorem exit_fields (status : Int) (g : grid_t) (out f : FILE) :
    ∃ r : exit_t, r = { status := status, grid := g, stdout := out, fp := f } ∧
      r.status = status ∧ r.grid = g ∧ r.stdout = out ∧ r.fp = f :=
  ⟨_, rfl, rfl, rfl, rfl, rfl⟩

theorem length_run_lines (cos sin : ℚ → ℚ) (grid : grid_t) :
    (header_lines ++ velocity_lines cos sin (init_grid grid) ++
      (List.range NUMBER_OF_STEPS).flatMap (fun k =>
        position_lines (grid_after cos sin (k + 1) (init_grid grid)))).length
      = 4 + X_SIZE * Y_SIZE + NUMBER_OF_STEPS * (X_SIZE * Y_SIZE) := by
  rw [List.length_append, List.length_append, length_header_lines, length_velocity_lines,
    length_flatMap_range _ (X_SIZE * Y_SIZE) _ (fun k => length_position_lines _)]

theorem main_run_fields (cos sin : ℚ → ℚ) (hcos : ∀ q, |cos q| ≤ 1) (hsin : ∀ q, |sin q| ≤ 1)
    (grid : grid_t) (stdout fp : FILE) :
    ∃ r f', main cos sin grid stdout (some fp) = some r ∧ r.status = 0 ∧
      r.grid = grid_after cos sin NUMBER_OF_STEPS (init_grid grid) ∧
      r.fp = (fclose f').1 ∧
      prints fp f' (header_lines ++ velocity_lines cos sin (init_grid grid) ++
        (List.range NUMBER_OF_STEPS).flatMap (fun k =>
          position_lines (grid_after cos sin (k + 1) (init_grid grid)))) := by
  obtain ⟨f', hf', hp⟩ := main_loop_prints cos sin hcos hsin NUMBER_OF_STEPS (init_grid grid)
    (print_lattice_velocities cos sin (init_grid grid) (fprintf fp header_lines).1).2
    (init_grid_bounded grid)
  have h := main_eq cos sin grid stdout fp _ _ hf'
  obtain ⟨r, hr, h1, h2, _, h4⟩ := exit_fields 0
    (grid_after cos sin NUMBER_OF_STEPS (init_grid grid))
    (fprintf stdout [[field_t.s "Simulating points...."]]).1 (fclose f').1
  rw [← hr] at h
  refine ⟨r, f', h, h1, h2, h4, ?_⟩
  exact prints_trans (prints_trans (fprintf_prints fp header_lines)
    (print_lattice_velocities_prints cos sin (init_grid grid) (fprintf fp header_lines).1)) hp

theorem main_ok_fields (cos sin : ℚ → ℚ) (hcos : ∀ q, |cos q| ≤ 1) (hsin : ∀ q, |sin q| ≤ 1)
    (grid : grid_t) (stdout fp : FILE)
    (hroom : 4 + X_SIZE * Y_SIZE + NUMBER_OF_STEPS * (X_SIZE * Y_SIZE) ≤ fp.room) :
    ∃ r, main cos sin grid stdout (some fp) = some r ∧ r.status = 0 ∧
      r.grid = grid_after cos sin NUMBER_OF_STEPS (init_grid grid) ∧
      r.fp.lines = fp.lines ++ header_lines ++ velocity_lines cos sin (init_grid grid) ++
        (List.range NUMBER_OF_STEPS).flatMap (fun k =>
          position_lines (grid_after cos sin (k + 1) (init_grid grid))) := by
  obtain ⟨r, f', hr, hs, hg, hf, hp⟩ := main_run_fields cos sin hcos hsin grid stdout fp
  refine ⟨r, hr, hs, hg, ?_⟩
  rw [hf, fclose_lines, prints_lines_of_room hp (by rw [length_run_lines]; exact hroom),
    List.append_assoc, List.append_assoc, List.append_assoc]

theorem stream_roomy_room :
    4 + X_SIZE * Y_SIZE + NUMBER_OF_STEPS * (X_SIZE * Y_SIZE) ≤ stream_roomy.room := by
  norm_num [stream_roomy]

/-- C7: with a stream that accepts the whole output, `main` returns, and the
lines it appended are the 4 header lines, then the `X_SIZE * Y_SIZE` lines of
`print_lattice_velocities` on the initial grid, then `NUMBER_OF_STEPS` blocks of
`X_SIZE * Y_SIZE` lines, the block of index `k` being what `print_grid` prints for
the grid after `k + 1` calls of `update_grid`; the array left by `main` is the
grid after `NUMBER_OF_STEPS` calls; in all 1682685 lines. -/
theorem main_output_layout (cos sin : ℚ → ℚ) (hcos : ∀ q, |cos q| ≤ 1)
    (hsin : ∀ q, |sin q| ≤ 1) (grid : grid_t) (stdout fp : FILE)
    (hroom : 4 + X_SIZE * Y_SIZE + NUMBER_OF_STEPS * (X_SIZE * Y_SIZE) ≤ fp.room) :
    ∃ r, main cos sin grid stdout (some fp) = some r ∧
      r.fp.lines = fp.lines ++ header_lines ++ velocity_lines cos sin (init_grid grid) ++
        (List.range NUMBER_OF_STEPS).flatMap (fun k =>
          position_lines (grid_after cos sin (k + 1) (init_grid grid))) ∧
      header_lines.length = 4 ∧
      (velocity_lines cos sin (init_grid grid)).length = X_SIZE * Y_SIZE ∧
      (∀ k, (position_lines (grid_after cos sin (k + 1) (init_grid grid))).length
        = X_SIZE * Y_SIZE) ∧
      grid_after cos sin 0 (init_grid grid) = init_grid grid ∧
      (∀ k, k < NUMBER_OF_STEPS →
        update_grid cos sin (grid_after cos sin k (init_grid grid))
          = some (grid_after cos sin (k + 1) (init_grid grid))) ∧
      r.grid = grid_after cos sin NUMBER_OF_STEPS (init_grid grid) ∧
      (∀ (g : grid_t) (f : FILE), X_SIZE * Y_SIZE ≤ f.room →
        (print_grid g f).2.lines = f.lines ++ position_lines g) ∧
      (∀ (g : grid_t) (f : FILE), X_SIZE * Y_SIZE ≤ f.room →
        (print_lattice_velocities cos sin g f).2.lines = f.lines ++ velocity_lines cos sin g) ∧
      r.fp.lines.length = fp.lines.length + 1682685 ∧
      4 + X_SIZE * Y_SIZE + NUMBER_OF_STEPS * (X_SIZE * Y_SIZE) = 1682685 := by
  obtain ⟨r, hr, _, hg, hl⟩ := main_ok_fields cos sin hcos hsin grid stdout fp hroom
  refine ⟨r, hr, hl, length_header_lines, length_velocity_lines _ _ _,
    fun k => length_position_lines _, grid_after_zero _ _ _,
    fun k _ => update_grid_grid_after cos sin hcos hsin k _ (init_grid_bounded grid), hg,
    fun g f h => ?_, fun g f h => ?_, ?_, by norm_num⟩
  · rw [print_grid_ok g f h]
  · rw [print_lattice_velocities_ok cos sin g f h]
  · rw [hl]
    simp only [List.length_append, length_header_lines, length_velocity_lines]
    rw [length_flatMap_range _ (X_SIZE * Y_SIZE) _ (fun k => length_position_lines _)]
    have e : 4 + X_SIZE * Y_SIZE + NUMBER_OF_STEPS * (X_SIZE * Y_SIZE) = 1682685 := by norm_num
    omega

/-- Witness of C7: the run on an empty stream with room for 2000000 lines. -/
theorem main_output_layout_witness :
    ∃ r, main cos_model sin_model grid_garbage stream_roomy (some stream_roomy) = some r ∧
      r.fp.lines.length = 1682685 := by
  obtain ⟨r, hr, _, _, _, _, _, _, _, _, _, hlen, _⟩ := main_output_layout cos_model sin_model
    abs_cos_model_le abs_sin_model_le grid_garbage stream_roomy stream_roomy stream_roomy_room
  refine ⟨r, hr, ?_⟩
  rw [hlen]
  norm_num [stream_roomy]

theorem cell_offset_lt (i : Fin X_SIZE) (j : Fin Y_SIZE) :
    i.val * Y_SIZE + j.val < X_SIZE * Y_SIZE := by
  have hi : i.val < 41 := i.isLt
  have hj : j.val < 41 := j.isLt
  show i.val * 41 + j.val < 41 * 41
  omega

/-- C8: `print_grid` appends exactly `X_SIZE * Y_SIZE` lines, the line at offset
`i * Y_SIZE + j` holding the position of `grid[i][j]` (`j` varies fastest, the
loop order of `init_grid`); in the run, for `1 ≤ k ≤ NUMBER_OF_STEPS`, the line
at offset `i * Y_SIZE + j` of the `k`-th position block holds the position of the
point `(i, j)` after exactly `k` calls of `update_grid` on the initial grid. -/
theorem print_grid_row_major (cos sin : ℚ → ℚ) (hcos : ∀ q, |cos q| ≤ 1)
    (hsin : ∀ q, |sin q| ≤ 1) (grid : grid_t) (stdout fp : FILE)
    (hroom : 4 + X_SIZE * Y_SIZE + NUMBER_OF_STEPS * (X_SIZE * Y_SIZE) ≤ fp.room) :
    (∀ (g : grid_t) (f : FILE), X_SIZE * Y_SIZE ≤ f.room →
      (print_grid g f).1 = g ∧
      (print_grid g f).2.lines.length = f.lines.length + X_SIZE * Y_SIZE ∧
      ∀ (i : Fin X_SIZE) (j : Fin Y_SIZE),
        (print_grid g f).2.lines[f.lines.length + (i.val * Y_SIZE + j.val)]?
          = some [field_t.f (g i j).x, field_t.f (g i j).y]) ∧
    ∃ r, main cos sin grid stdout (some fp) = some r ∧
      ∀ k, 1 ≤ k → k ≤ NUMBER_OF_STEPS →
        ∃ gk, update_grid_n cos sin k (init_grid grid) = some gk ∧
          ∀ (i : Fin X_SIZE) (j : Fin Y_SIZE),
            r.fp.lines[fp.lines.length + 4 + X_SIZE * Y_SIZE + (k - 1) * (X_SIZE * Y_SIZE)
                + (i.val * Y_SIZE + j.val)]?
              = some [field_t.f (gk i j).x, field_t.f (gk i j).y] := by
  constructor
  · intro g f h
    refine ⟨print_grid_grid g f, ?_, fun i j => ?_⟩
    · rw [print_grid_ok g f h]
      simp only [List.length_append, length_position_lines]
    · rw [print_grid_ok g f h]
      rw [List.getElem?_append_right (Nat.le_add_right _ _), Nat.add_sub_cancel_left,
        position_lines_getElem?]
  · obtain ⟨r, hr, _, _, hl⟩ := main_ok_fields cos sin hcos hsin grid stdout fp hroom
    refine ⟨r, hr, fun k hk1 hk2 => ?_⟩
    refine ⟨grid_after cos sin k (init_grid grid),
      (update_grid_n_eq_grid_after cos sin hcos hsin k _ (init_grid_bounded grid)).1,
      fun i j => ?_⟩
    have hlen : (fp.lines ++ header_lines ++ velocity_lines cos sin (init_grid grid)).length
        = fp.lines.length + 4 + X_SIZE * Y_SIZE := by
      simp only [List.length_append, length_header_lines, length_velocity_lines]
    have hk : k - 1 + 1 = k := by omega
    rw [hl, List.getElem?_append_right (by rw [hlen]; omega), hlen]
    have e : fp.lines.length + 4 + X_SIZE * Y_SIZE + (k - 1) * (X_SIZE * Y_SIZE)
          + (i.val * Y_SIZE + j.val) - (fp.lines.length + 4 + X_SIZE * Y_SIZE)
        = (k - 1) * (X_SIZE * Y_SIZE) + (i.val * Y_SIZE + j.val) := by omega
    rw [e, flatMap_range_getElem? _ (X_SIZE * Y_SIZE) _ (k - 1) _
      (fun k => length_position_lines _) (by omega) (cell_offset_lt i j), hk,
      position_lines_getElem?]

/-- Witness of C8: the run on an empty stream with room for 2000000 lines; the
first line of the first position block holds the position of the point
`(0, 0)` after one call. -/
theorem print_grid_row_major_witness :
    ∃ r, main cos_model sin_model grid_garbage stream_roomy (some stream_roomy) = some r ∧
      ∃ g1, update_grid cos_model sin_model (init_grid grid_garbage) = some g1 ∧
        r.fp.lines[4 + X_SIZE * Y_SIZE]? = some [field_t.f (g1 0 0).x, field_t.f (g1 0 0).y] := by
  obtain ⟨r, hr, h⟩ := (print_grid_row_major cos_model sin_model abs_cos_model_le
    abs_sin_model_le grid_garbage stream_roomy stream_roomy stream_roomy_room).2
  obtain ⟨g1, hg1, hline⟩ := h 1 (le_refl 1) (by norm_num)
  refine ⟨r, hr, g1, ?_, ?_⟩
  · rw [update_grid_n, update_grid_n, Option.some_bind] at hg1
    exact hg1
  · have := hline 0 0
    simpa [stream_roomy] using this

/-- C9: in the run the line at offset `i * Y_SIZE + j` of the snapshot, which
follows the 4 header lines, holds `equation(i - 20, j - 20)`, the field at the
initial position of the point `(i, j)`; `print_lattice_velocities` returns the
array as it received it, so after the snapshot every point still has the
initial position and velocity `(0, 0)`. -/
theorem snapshot_is_initial_field (cos sin : ℚ → ℚ) (hcos : ∀ q, |cos q| ≤ 1)
    (hsin : ∀ q, |sin q| ≤ 1) (grid : grid_t) (stdout fp : FILE)
    (hroom : 4 + X_SIZE * Y_SIZE + NUMBER_OF_STEPS * (X_SIZE * Y_SIZE) ≤ fp.room) :
    (∃ r, main cos sin grid stdout (some fp) = some r ∧
      ∀ (i : Fin X_SIZE) (j : Fin Y_SIZE),
        r.fp.lines[fp.lines.length + 4 + (i.val * Y_SIZE + j.val)]?
          = some [field_t.f (equation cos sin ((i.val : ℚ) - 20) ((j.val : ℚ) - 20)).x,
                  field_t.f (equation cos sin ((i.val : ℚ) - 20) ((j.val : ℚ) - 20)).y]) ∧
    (∀ (g : grid_t) (f : FILE), (print_lattice_velocities cos sin g f).1 = g) ∧
    ∀ (f : FILE) (i : Fin X_SIZE) (j : Fin Y_SIZE),
      ((print_lattice_velocities cos sin (init_grid grid) f).1 i j).x = (i.val : ℚ) - 20 ∧
      ((print_lattice_velocities cos sin (init_grid grid) f).1 i j).y = (j.val : ℚ) - 20 ∧
      ((print_lattice_velocities cos sin (init_grid grid) f).1 i j).x_velocity = 0 ∧
      ((print_lattice_velocities cos sin (init_grid grid) f).1 i j).y_velocity = 0 ∧
      ((print_lattice_velocities cos sin (init_grid grid) f).1 i j).is_dead = 0 := by
  refine ⟨?_, fun g f => print_lattice_velocities_grid cos sin g f, fun f i j => ?_⟩
  · obtain ⟨r, hr, _, _, hl⟩ := main_ok_fields cos sin hcos hsin grid stdout fp hroom
    refine ⟨r, hr, fun i j => ?_⟩
    have hlen : (fp.lines ++ header_lines).length = fp.lines.length + 4 := by
      simp only [List.length_append, length_header_lines]
    have hlen2 : (fp.lines ++ header_lines ++ velocity_lines cos sin (init_grid grid)).length
        = fp.lines.length + 4 + X_SIZE * Y_SIZE := by
      simp only [List.length_append, length_header_lines, length_velocity_lines]
    have ho := cell_offset_lt i j
    rw [hl, List.getElem?_append_left (by rw [hlen2]; omega),
      List.getElem?_append_right (by rw [hlen]; omega), hlen, Nat.add_sub_cancel_left,
      velocity_lines_getElem?, init_grid_apply]
  · rw [print_lattice_velocities_grid, init_grid_apply]
    exact ⟨rfl, rfl, rfl, rfl, rfl⟩

/-- Witness of C9: the run on an empty stream with room for 2000000 lines; the
first snapshot line is the field at `(-20, -20)`. -/
theorem snapshot_is_initial_field_witness :
    ∃ r, main cos_model sin_model grid_garbage stream_roomy (some stream_roomy) = some r ∧
      r.fp.lines[4]? = some [field_t.f (20 * cos_model (-20)), field_t.f (-20 * sin_model 20)] := by
  obtain ⟨r, hr, h⟩ := (snapshot_is_initial_field cos_model sin_model abs_cos_model_le
    abs_sin_model_le grid_garbage stream_roomy stream_roomy stream_roomy_room).1
  refine ⟨r, hr, ?_⟩
  have := h 0 0
  simpa [stream_roomy, equation] using this

theorem init_grid_eq (grid1 grid2 : grid_t) : init_grid grid1 = init_grid grid2 := by
  funext i j
  rw [init_grid_apply, init_grid_apply]

/-- C11: `equation` is a function of its two arguments (it reads `cos` at `y`
and `sin` at `-x` only), `init_grid` does not depend on what the array held,
and for every `N` the `N` calls of `update_grid` after `init_grid` are defined
and yield one grid, the same for two runs; two runs of `main` append the same
lines and leave the same grid. -/
theorem run_is_determined (cos sin : ℚ → ℚ) (hcos : ∀ q, |cos q| ≤ 1)
    (hsin : ∀ q, |sin q| ≤ 1) :
    (∀ x y x' y' : ℚ, x = x' → y = y' → equation cos sin x y = equation cos sin x' y') ∧
    (∀ (cos' sin' : ℚ → ℚ) (x y : ℚ), cos' y = cos y → sin' (-x) = sin (-x) →
      equation cos' sin' x y = equation cos sin x y) ∧
    (∀ grid1 grid2 : grid_t, init_grid grid1 = init_grid grid2) ∧
    (∀ (N : Nat) (grid1 grid2 : grid_t),
      ∃ g, update_grid_n cos sin N (init_grid grid1) = some g ∧
        update_grid_n cos sin N (init_grid grid2) = some g ∧
        ∀ g', update_grid_n cos sin N (init_grid grid1) = some g' → g' = g) ∧
    (∀ (grid1 grid2 : grid_t) (stdout1 stdout2 fp1 fp2 : FILE),
      4 + X_SIZE * Y_SIZE + NUMBER_OF_STEPS * (X_SIZE * Y_SIZE) ≤ fp1.room →
      4 + X_SIZE * Y_SIZE + NUMBER_OF_STEPS * (X_SIZE * Y_SIZE) ≤ fp2.room →
      fp1.lines = fp2.lines →
      ∃ r1 r2, main cos sin grid1 stdout1 (some fp1) = some r1 ∧
        main cos sin grid2 stdout2 (some fp2) = some r2 ∧
        r1.fp.lines = r2.fp.lines ∧ r1.grid = r2.grid ∧ r1.status = r2.status) := by
  refine ⟨?_, ?_, init_grid_eq, ?_, ?_⟩
  · intro x y x' y' hx hy
    rw [hx, hy]
  · intro cos' sin' x y hc hs
    unfold equation
    rw [hc, hs]
  · intro N grid1 grid2
    obtain ⟨g, hg, _⟩ := update_grid_n_bounded cos sin hcos hsin N (init_grid grid1)
      (init_grid_bounded grid1)
    refine ⟨g, hg, ?_, fun g' hg' => ?_⟩
    · rw [init_grid_eq grid2 grid1]
      exact hg
    · rw [hg] at hg'
      exact (Option.some.inj hg').symm
  · intro grid1 grid2 stdout1 stdout2 fp1 fp2 h1 h2 hl
    obtain ⟨r1, hr1, hs1, hg1, hl1⟩ := main_ok_fields cos sin hcos hsin grid1 stdout1 fp1 h1
    obtain ⟨r2, hr2, hs2, hg2, hl2⟩ := main_ok_fields cos sin hcos hsin grid2 stdout2 fp2 h2
    refine ⟨r1, r2, hr1, hr2, ?_, ?_, ?_⟩
    · rw [hl1, hl2, hl, init_grid_eq grid1 grid2]
    · rw [hg1, hg2, init_grid_eq grid1 grid2]
    · rw [hs1, hs2]

/-- Witness of C11: seven steps from two different contents of the
uninitialised array give one grid. -/
theorem run_is_determined_witness :
    ∃ g, update_grid_n cos_model sin_model 7 (init_grid grid_garbage) = some g ∧
      update_grid_n cos_model sin_model 7 (init_grid grid_past_limit) = some g := by
  obtain ⟨g, h1, h2, _⟩ := (run_is_determined cos_model sin_model abs_cos_model_le
    abs_sin_model_le).2.2.2.1 7 grid_garbage grid_past_limit
  exact ⟨g, h1, h2⟩

theorem abs_trunc_bounds (d : ℚ) : ((|trunc d| : Int) : ℚ) ≤ |d| ∧ |d| < ((|trunc d| : Int) : ℚ) + 1 := by
  rw [trunc_abs]
  exact ⟨Int.floor_le _, Int.lt_floor_add_one _⟩

/-- C12: as coded, the death check of a live point reads `abs` of the moved
coordinates converted to `int`, that is the magnitude truncated toward zero: the
point is marked dead iff `abs((int) x) > 82` or `abs((int) y) > 82`, iff
`|x| ≥ 83` or `|y| ≥ 83`; a point moved to `82 < |x| < 83` with `|y| ≤ 82` stays
alive, and `grid_past_limit` holds such points. -/
theorem death_check_truncates (cos sin : ℚ → ℚ) (hsin : ∀ q, |sin q| ≤ 1) :
    (∀ d : ℚ, trunc d = (if 0 ≤ d then ⌊d⌋ else ⌈d⌉) ∧
      ((|trunc d| : Int) : ℚ) ≤ |d| ∧ |d| < ((|trunc d| : Int) : ℚ) + 1) ∧
    (∀ grid : grid_t,
      (∀ (i : Fin X_SIZE) (j : Fin Y_SIZE), (grid i j).is_dead = 0 →
        |(moved cos sin (grid i j)).x| < 2147483648 ∧
        |(moved cos sin (grid i j)).y| < 2147483648) →
      ∃ grid', update_grid cos sin grid = some grid' ∧
        ∀ (i : Fin X_SIZE) (j : Fin Y_SIZE), (grid i j).is_dead = 0 →
          abs_of_double (moved cos sin (grid i j)).x
            = some |trunc (moved cos sin (grid i j)).x| ∧
          abs_of_double (moved cos sin (grid i j)).y
            = some |trunc (moved cos sin (grid i j)).y| ∧
          ((grid' i j).is_dead = 1 ↔
            X_LIMIT < |trunc (moved cos sin (grid i j)).x| ∨
            Y_LIMIT < |trunc (moved cos sin (grid i j)).y|) ∧
          ((grid' i j).is_dead = 1 ↔
            83 ≤ |(moved cos sin (grid i j)).x| ∨ 83 ≤ |(moved cos sin (grid i j)).y|) ∧
          ((grid' i j).is_dead = 0 ∨ (grid' i j).is_dead = 1) ∧
          (82 < |(moved cos sin (grid i j)).x| → |(moved cos sin (grid i j)).x| < 83 →
            |(moved cos sin (grid i j)).y| ≤ 82 →
            (grid' i j).is_dead = 0 ∧ (X_LIMIT : ℚ) < |(grid' i j).x|)) ∧
    (∃ grid', update_grid cos sin grid_past_limit = some grid' ∧
      (grid_past_limit 0 0).is_dead = 0 ∧
      82 < |(moved cos sin (grid_past_limit 0 0)).x| ∧
      |(moved cos sin (grid_past_limit 0 0)).x| < 83 ∧
      |(moved cos sin (grid_past_limit 0 0)).y| ≤ 82 ∧
      (grid' 0 0).is_dead = 0 ∧ (X_LIMIT : ℚ) < |(grid' 0 0).x|) := by
  have key : ∀ grid : grid_t,
      (∀ (i : Fin X_SIZE) (j : Fin Y_SIZE), (grid i j).is_dead = 0 →
        |(moved cos sin (grid i j)).x| < 2147483648 ∧
        |(moved cos sin (grid i j)).y| < 2147483648) →
      ∃ grid', update_grid cos sin grid = some grid' ∧
        ∀ (i : Fin X_SIZE) (j : Fin Y_SIZE), (grid i j).is_dead = 0 →
          grid' i j = (if 83 ≤ |(moved cos sin (grid i j)).x| ∨ 83 ≤ |(moved cos sin (grid i j)).y|
            then killed (moved cos sin (grid i j)) else moved cos sin (grid i j)) := by
    intro grid hdef
    have hpt : ∀ (a : Fin X_SIZE) (b : Fin Y_SIZE),
        ∃ p, update_point cos sin (grid a b) = some p := by
      intro a b
      by_cases hd : (grid a b).is_dead = 0
      · exact ⟨_, update_point_live cos sin _ hd (hdef a b hd).1 (hdef a b hd).2⟩
      · exact ⟨_, update_point_dead cos sin _ hd⟩
    obtain ⟨grid', hg⟩ := update_grid_defined cos sin grid hpt
    refine ⟨grid', hg, fun i j hd => ?_⟩
    have h := (update_grid_eq_some_iff cos sin grid grid').mp hg i j
    rw [update_point_live cos sin _ hd (hdef i j hd).1 (hdef i j hd).2] at h
    exact (Option.some.inj h).symm
  have hX : ∀ d : ℚ, (X_LIMIT < |trunc d|) ↔ 83 ≤ |d| := by
    intro d
    rw [lt_abs_trunc_iff]
    unfold X_LIMIT
    norm_num
  have hY : ∀ d : ℚ, (Y_LIMIT < |trunc d|) ↔ 83 ≤ |d| := by
    intro d
    rw [lt_abs_trunc_iff]
    unfold Y_LIMIT
    norm_num
  have hXL : (X_LIMIT : ℚ) = 82 := by norm_num [X_LIMIT]
  refine ⟨fun d => ⟨rfl, abs_trunc_bounds d⟩, ?_, ?_⟩
  · intro grid hdef
    obtain ⟨grid', hg, h⟩ := key grid hdef
    refine ⟨grid', hg, fun i j hd => ?_⟩
    have e := h i j hd
    have hdead : (grid' i j).is_dead = 1 ↔
        83 ≤ |(moved cos sin (grid i j)).x| ∨ 83 ≤ |(moved cos sin (grid i j)).y| := by
      rw [e]
      by_cases hb : 83 ≤ |(moved cos sin (grid i j)).x| ∨ 83 ≤ |(moved cos sin (grid i j)).y|
      · rw [if_pos hb]
        exact ⟨fun _ => hb, fun _ => rfl⟩
      · rw [if_neg hb]
        refine ⟨fun h1 => ?_, fun h1 => absurd h1 hb⟩
        have h0 : (moved cos sin (grid i j)).is_dead = 0 := hd
        rw [h0] at h1
        exact absurd h1 (by norm_num)
    refine ⟨abs_of_double_eq _ (hdef i j hd).1, abs_of_double_eq _ (hdef i j hd).2, ?_, hdead,
      ?_, ?_⟩
    · rw [hX, hY]
      exact hdead
    · by_cases hb : 83 ≤ |(moved cos sin (grid i j)).x| ∨ 83 ≤ |(moved cos sin (grid i j)).y|
      · exact Or.inr (hdead.mpr hb)
      · left
        rw [e, if_neg hb]
        exact hd
    · intro h82 h83 hy
      have hb : ¬ (83 ≤ |(moved cos sin (grid i j)).x| ∨ 83 ≤ |(moved cos sin (grid i j)).y|) := by
        rw [not_or]
        constructor <;> intro h' <;> linarith
      rw [e, if_neg hb, hXL]
      exact ⟨hd, h82⟩
  · have hx : (moved cos sin (grid_past_limit 0 0)).x = 165 / 2 := by
      simp [moved, equation, grid_past_limit]
    have hy : |(moved cos sin (grid_past_limit 0 0)).y| ≤ 1 := by
      have h := abs_mul_TIME_STEP_le (165 / 2 * sin (-(165 / 2))) (165 / 2)
        ((abs_mul_le_of_abs_le_one (165 / 2) (sin (-(165 / 2))) (hsin _)).trans
          (by norm_num [abs_of_pos]))
      have e : (moved cos sin (grid_past_limit 0 0)).y
          = 165 / 2 * sin (-(165 / 2)) * TIME_STEP := by
        simp [moved, equation, grid_past_limit]
      rw [e]
      refine h.trans ?_
      norm_num
    have hax : |(moved cos sin (grid_past_limit 0 0)).x| = 165 / 2 := by
      rw [hx]
      norm_num [abs_of_pos]
    obtain ⟨grid', hg, h⟩ := key grid_past_limit (fun i j _ => by
      have e : grid_past_limit i j = grid_past_limit 0 0 := rfl
      rw [e, hax]
      constructor
      · norm_num
      · linarith)
    have hb : ¬ (83 ≤ |(moved cos sin (grid_past_limit 0 0)).x| ∨
        83 ≤ |(moved cos sin (grid_past_limit 0 0)).y|) := by
      rw [not_or, hax]
      constructor
      · norm_num
      · intro h'
        linarith
    have e := h 0 0 rfl
    rw [if_neg hb] at e
    refine ⟨grid', hg, rfl, ?_, ?_, by linarith, ?_, ?_⟩
    · rw [hax]
      norm_num
    · rw [hax]
      norm_num
    · rw [e]
      rfl
    · rw [e, hax, hXL]
      norm_num

/-- Witness of C12: with `sin_model` for `sin`, a point of `grid_past_limit`
stays alive at `|x| = 82.5`. -/
theorem death_check_truncates_witness :
    ∃ grid', update_grid cos_model sin_model grid_past_limit = some grid' ∧
      (grid' 0 0).is_dead = 0 ∧ (X_LIMIT : ℚ) < |(grid' 0 0).x| := by
  obtain ⟨grid', hg, _, _, _, _, hd, hx⟩ :=
    (death_check_truncates cos_model sin_model abs_sin_model_le).2.2
  exact ⟨grid', hg, hd, hx⟩

theorem update_grid_simultaneous_eq_some_iff (cos sin : ℚ → ℚ) (g g' : grid_t) :
    update_grid_simultaneous cos sin g = some g' ↔
      ∀ (i : Fin X_SIZE) (j : Fin Y_SIZE), update_point cos sin (g i j) = some (g' i j) := by
  unfold update_grid_simultaneous
  constructor
  · intro h i j
    split at h
    · rename_i hall
      have e := Option.some.inj h
      rw [← e]
      exact (Option.some_get (hall i j)).symm
    · cases h
  · intro h
    have hall : ∀ (i : Fin X_SIZE) (j : Fin Y_SIZE),
        (update_point cos sin (g i j)).isSome = true := by
      intro i j
      rw [h i j]
      rfl
    rw [dif_pos hall]
    congr 1
    funext i j
    apply Option.some.inj
    rw [Option.some_get, h i j]

theorem update_grid_in_order (cos sin : ℚ → ℚ) (l : List (Fin X_SIZE × Fin Y_SIZE))
    (hl : l.Nodup) (hall : ∀ c, c ∈ l) (g : grid_t) :
    l.foldlM (fun g c => update_grid_body cos sin c.1 c.2 g) g = update_grid cos sin g := by
  apply Option.ext
  intro g'
  simp only [Option.mem_def]
  rw [update_grid_eq_some_iff]
  simp only [update_grid_body_eq]
  rw [foldlM_store (fun _ p => update_point cos sin p) l hl g g']
  constructor
  · intro h i j
    exact (h (i, j)).1 (hall _)
  · intro h c
    exact ⟨fun _ => h c.1 c.2, fun hn => absurd (hall c) hn⟩

/-- C13: the in-place sequential loop of `update_grid` is the simultaneous map
of the single-point step `update_point`: the body at `(i, j)` replaces
`grid[i][j]` by `update_point` of it, `update_grid` returns `g'` iff
`update_point (g i j) = some (g' i j)` for every index, so `update_grid` equals
`update_grid_simultaneous`; two grids that agree at `(i, j)` have results that
agree at `(i, j)`; and visiting the index pairs in any order, each once, gives
the result of `update_grid`. -/
theorem update_grid_pointwise (cos sin : ℚ → ℚ) :
    (∀ (i : Fin X_SIZE) (j : Fin Y_SIZE) (g : grid_t),
      update_grid_body cos sin i j g = (update_point cos sin (g i j)).map (store g i j)) ∧
    (∀ g g' : grid_t, update_grid cos sin g = some g' ↔
      ∀ (i : Fin X_SIZE) (j : Fin Y_SIZE), update_point cos sin (g i j) = some (g' i j)) ∧
    (∀ g : grid_t, update_grid cos sin g = update_grid_simultaneous cos sin g) ∧
    (∀ (g1 g2 g1' g2' : grid_t) (i : Fin X_SIZE) (j : Fin Y_SIZE),
      update_grid cos sin g1 = some g1' → update_grid cos sin g2 = some g2' →
      g1 i j = g2 i j → g1' i j = g2' i j) ∧
    (∀ l : List (Fin X_SIZE × Fin Y_SIZE), l.Nodup → (∀ c, c ∈ l) → ∀ g : grid_t,
      l.foldlM (fun g c => update_grid_body cos sin c.1 c.2 g) g = update_grid cos sin g) := by
  refine ⟨update_grid_body_eq cos sin, update_grid_eq_some_iff cos sin, fun g => ?_, ?_,
    fun l hl hall g => update_grid_in_order cos sin l hl hall g⟩
  · apply Option.ext
    intro g'
    simp only [Option.mem_def]
    rw [update_grid_eq_some_iff, update_grid_simultaneous_eq_some_iff]
  · intro g1 g2 g1' g2' i j h1 h2 e
    have p1 := (update_grid_eq_some_iff cos sin g1 g1').mp h1 i j
    have p2 := (update_grid_eq_some_iff cos sin g2 g2').mp h2 i j
    rw [e, p2] at p1
    exact (Option.some.inj p1).symm

theorem equation_bounds (cos sin : ℚ → ℚ) (hcos : ∀ q, |cos q| ≤ 1) (hsin : ∀ q, |sin q| ≤ 1)
    (x y : ℚ) : |(equation cos sin x y).x| ≤ |y| ∧ |(equation cos sin x y).y| ≤ |x| := by
  unfold equation
  constructor
  · have := abs_mul_le_of_abs_le_one (-y) (cos y) (hcos _)
    rwa [abs_neg] at this
  · exact abs_mul_le_of_abs_le_one _ _ (hsin _)

theorem update_point_within (cos sin : ℚ → ℚ) (hcos : ∀ q, |cos q| ≤ 1)
    (hsin : ∀ q, |sin q| ≤ 1) (p p' : point_t)
    (hp : |p.x| < 84 ∧ |p.y| < 84 ∧ (p.is_dead = 0 → |p.x| < 83 ∧ |p.y| < 83))
    (h : update_point cos sin p = some p') :
    |p'.x| < 84 ∧ |p'.y| < 84 ∧ (p'.is_dead = 0 → |p'.x| < 83 ∧ |p'.y| < 83) := by
  by_cases hd : p.is_dead = 0
  · obtain ⟨hx, hy⟩ := hp.2.2 hd
    obtain ⟨mx, my⟩ := moved_bounds cos sin hcos hsin p
    rw [update_point_live cos sin p hd (by linarith) (by linarith)] at h
    have e := (Option.some.inj h).symm
    by_cases hb : 83 ≤ |(moved cos sin p).x| ∨ 83 ≤ |(moved cos sin p).y|
    · rw [if_pos hb] at e
      rw [e]
      refine ⟨?_, ?_, fun h0 => ?_⟩
      · show |(moved cos sin p).x| < 84
        linarith
      · show |(moved cos sin p).y| < 84
        linarith
      · simp [killed] at h0
    · rw [if_neg hb] at e
      rw [e]
      rw [not_or] at hb
      have h1 : |(moved cos sin p).x| < 83 := lt_of_not_ge hb.1
      have h2 : |(moved cos sin p).y| < 83 := lt_of_not_ge hb.2
      exact ⟨by linarith, by linarith, fun _ => ⟨h1, h2⟩⟩
  · rw [update_point_dead cos sin p hd] at h
    cases h
    exact hp

theorem update_grid_n_within (cos sin : ℚ → ℚ) (hcos : ∀ q, |cos q| ≤ 1)
    (hsin : ∀ q, |sin q| ≤ 1) (n : Nat) (grid0 grid : grid_t)
    (h : update_grid_n cos sin n (init_grid grid0) = some grid) (i : Fin X_SIZE)
    (j : Fin Y_SIZE) :
    |(grid i j).x| < 84 ∧ |(grid i j).y| < 84 ∧
      ((grid i j).is_dead = 0 → |(grid i j).x| < 83 ∧ |(grid i j).y| < 83) := by
  induction n generalizing grid with
  | zero =>
    cases h
    obtain ⟨hx, hy⟩ := init_grid_bounded grid0 i j (by rw [init_grid_apply])
    exact ⟨by linarith, by linarith, fun _ => ⟨hx, hy⟩⟩
  | succ n ih =>
    obtain ⟨g1, h1, h2⟩ := (update_grid_n_succ cos sin n _ grid).mp h
    exact update_point_within cos sin hcos hsin (g1 i j) (grid i j) (ih g1 h1)
      ((update_grid_eq_some_iff cos sin g1 grid).mp h2 i j)

theorem double_to_int_eq (d : ℚ) (h : |d| < 2147483648) : double_to_int d = some (trunc d) := by
  have h1 : ¬ ((2147483647 : Int) < |trunc d|) := by
    rw [lt_abs_trunc_iff]
    push_cast
    intro h2
    linarith
  obtain ⟨h3, h4⟩ := abs_le.mp (not_lt.mp h1)
  unfold double_to_int INT_MIN INT_MAX
  rw [if_pos ⟨by linarith, h4⟩]

/-- C14: with `cos` and `sin` bounded by 1, `|equation(x, y).x| ≤ |y|` and
`|equation(x, y).y| ≤ |x|`; any number `n` of calls of `update_grid` after
`init_grid` is defined, and in the grid reached every point has `|x| < 84` and
`|y| < 84` and every live point `|x| < 83` and `|y| < 83`; the values that the
death check of the next call converts to `int` have magnitude below 84, so the
conversion and `abs` are defined on them. -/
theorem trajectories_bounded (cos sin : ℚ → ℚ) (hcos : ∀ q, |cos q| ≤ 1)
    (hsin : ∀ q, |sin q| ≤ 1) (n : Nat) (grid0 : grid_t) :
    (∀ x y : ℚ, |(equation cos sin x y).x| ≤ |y| ∧ |(equation cos sin x y).y| ≤ |x|) ∧
    ∃ grid, update_grid_n cos sin n (init_grid grid0) = some grid ∧
      ∀ (i : Fin X_SIZE) (j : Fin Y_SIZE),
        |(grid i j).x| < 84 ∧ |(grid i j).y| < 84 ∧
        ((grid i j).is_dead = 0 →
          |(grid i j).x| < 83 ∧ |(grid i j).y| < 83 ∧
          |(moved cos sin (grid i j)).x| < 84 ∧ |(moved cos sin (grid i j)).y| < 84 ∧
          double_to_int (moved cos sin (grid i j)).x
            = some (trunc (moved cos sin (grid i j)).x) ∧
          double_to_int (moved cos sin (grid i j)).y
            = some (trunc (moved cos sin (grid i j)).y) ∧
          INT_MIN < trunc (moved cos sin (grid i j)).x ∧
          trunc (moved cos sin (grid i j)).x ≤ INT_MAX ∧
          INT_MIN < trunc (moved cos sin (grid i j)).y ∧
          trunc (moved cos sin (grid i j)).y ≤ INT_MAX ∧
          abs_of_double (moved cos sin (grid i j)).x
            = some |trunc (moved cos sin (grid i j)).x| ∧
          abs_of_double (moved cos sin (grid i j)).y
            = some |trunc (moved cos sin (grid i j)).y|) := by
  refine ⟨equation_bounds cos sin hcos hsin, ?_⟩
  obtain ⟨grid, hg, _⟩ := update_grid_n_bounded cos sin hcos hsin n (init_grid grid0)
    (init_grid_bounded grid0)
  refine ⟨grid, hg, fun i j => ?_⟩
  obtain ⟨hx, hy, hl⟩ := update_grid_n_within cos sin hcos hsin n grid0 grid hg i j
  refine ⟨hx, hy, fun hd => ?_⟩
  obtain ⟨lx, ly⟩ := hl hd
  obtain ⟨mx, my⟩ := moved_bounds cos sin hcos hsin (grid i j)
  have bx : |(moved cos sin (grid i j)).x| < 84 := by linarith
  have b_y : |(moved cos sin (grid i j)).y| < 84 := by linarith
  have range : ∀ d : ℚ, |d| < 84 → INT_MIN < trunc d ∧ trunc d ≤ INT_MAX := by
    intro d hd84
    have h1 : ¬ ((83 : Int) < |trunc d|) := by
      rw [lt_abs_trunc_iff]
      push_cast
      intro h2
      linarith
    obtain ⟨h3, h4⟩ := abs_le.mp (not_lt.mp h1)
    unfold INT_MIN INT_MAX
    constructor <;> linarith
  exact ⟨lx, ly, bx, b_y, double_to_int_eq _ (by linarith), double_to_int_eq _ (by linarith),
    (range _ bx).1, (range _ bx).2, (range _ b_y).1, (range _ b_y).2,
    abs_of_double_eq _ (by linarith), abs_of_double_eq _ (by linarith)⟩

/-- Witness of C14: the grid after 12 steps with `cos_model` and `sin_model`. -/
theorem trajectories_bounded_witness :
    ∃ grid, update_grid_n cos_model sin_model 12 (init_grid grid_garbage) = some grid ∧
      |(grid 0 0).x| < 84 ∧ |(grid 0 0).y| < 84 := by
  obtain ⟨grid, hg, h⟩ := (trajectories_bounded cos_model sin_model abs_cos_model_le
    abs_sin_model_le 12 grid_garbage).2
  exact ⟨grid, hg, (h 0 0).1, (h 0 0).2.1⟩

theorem update_point_origin (cos sin : ℚ → ℚ) (vx vy : ℚ) :
    update_point cos sin { x := 0, y := 0, x_velocity := vx, y_velocity := vy, is_dead := 0 }
      = some { x := 0, y := 0, x_velocity := 0, y_velocity := 0, is_dead := 0 } := by
  have hm : moved cos sin { x := 0, y := 0, x_velocity := vx, y_velocity := vy, is_dead := 0 }
      = { x := 0, y := 0, x_velocity := 0, y_velocity := 0, is_dead := 0 } := by
    simp [moved, equation]
  rw [update_point_live cos sin _ rfl (by rw [hm]; norm_num) (by rw [hm]; norm_num), hm]
  norm_num

theorem update_grid_n_origin (cos sin : ℚ → ℚ) (n : Nat) (grid0 grid : grid_t)
    (h : update_grid_n cos sin n (init_grid grid0) = some grid) :
    grid 20 20 = { x := 0, y := 0, x_velocity := 0, y_velocity := 0, is_dead := 0 } := by
  induction n generalizing grid with
  | zero =>
    cases h
    rw [init_grid_apply]
    have h20 : (20 : Fin X_SIZE).val = 20 := rfl
    simp only [h20]
    norm_num
  | succ n ih =>
    obtain ⟨g1, h1, h2⟩ := (update_grid_n_succ cos sin n _ grid).mp h
    have hp := (update_grid_eq_some_iff cos sin g1 grid).mp h2 20 20
    rw [ih g1 h1, update_point_origin] at hp
    exact (Option.some.inj hp).symm

/-- C15: `equation(0, 0) = (0, 0)`; `init_grid` places `grid[20][20]` at `(0, 0)`;
with `cos` and `sin` bounded by 1 any number `n` of calls of `update_grid` is
defined and leaves that point at position `(0, 0)` with velocity `(0, 0)` and
`is_dead = 0`. -/
theorem origin_is_fixed (cos sin : ℚ → ℚ) (hcos : ∀ q, |cos q| ≤ 1) (hsin : ∀ q, |sin q| ≤ 1)
    (n : Nat) (grid0 : grid_t) :
    (equation cos sin 0 0).x = 0 ∧ (equation cos sin 0 0).y = 0 ∧
    (init_grid grid0 20 20).x = 0 ∧ (init_grid grid0 20 20).y = 0 ∧
    ∃ grid, update_grid_n cos sin n (init_grid grid0) = some grid ∧
      (grid 20 20).x = 0 ∧ (grid 20 20).y = 0 ∧
      (grid 20 20).x_velocity = 0 ∧ (grid 20 20).y_velocity = 0 ∧
      (grid 20 20).is_dead = 0 := by
  have h0 := update_grid_n_origin cos sin 0 grid0 (init_grid grid0) rfl
  obtain ⟨grid, hg, _⟩ := update_grid_n_bounded cos sin hcos hsin n (init_grid grid0)
    (init_grid_bounded grid0)
  have hn := update_grid_n_origin cos sin n grid0 grid hg
  refine ⟨by simp [equation], by simp [equation], ?_, ?_, grid, hg, ?_⟩
  · rw [h0]
  · rw [h0]
  · rw [hn]
    exact ⟨rfl, rfl, rfl, rfl, rfl⟩

/-- Witness of C15: the centre point after 1000 steps with `cos_model` and
`sin_model`. -/
theorem origin_is_fixed_witness :
    ∃ grid, update_grid_n cos_model sin_model 1000 (init_grid grid_garbage) = some grid ∧
      (grid 20 20).x = 0 ∧ (grid 20 20).y = 0 ∧ (grid 20 20).is_dead = 0 := by
  obtain ⟨_, _, _, _, grid, hg, hx, hy, _, _, hd⟩ := origin_is_fixed cos_model sin_model
    abs_cos_model_le abs_sin_model_le 1000 grid_garbage
  exact ⟨grid, hg, hx, hy, hd⟩

end VectorField
